import Mathlib

/-!
# Verification of the RustUX physics / collision core

Shallow embedding of the RustUX engine core (src/math/mod.rs,
src/collision/mod.rs, src/physics/mod.rs, src/supertux/mod.rs).
`f32` values are modelled as exact rationals (`ℚ`): every operation the
verified claims touch is addition, subtraction, multiplication,
comparison, `abs`, `min`/`max`, `clamp` or `floor`, all of which the
source uses on small in-range values.  `HashMap` is modelled as an
association list with single-binding insert/erase/lookup semantics.
`u32`/`i32` ids and cell coordinates are modelled as `ℕ`/`ℤ`.
-/

namespace Rustux

/-! ## math/mod.rs -/

/-- 2D vector (glam::Vec2 over exact rationals). -/
structure Vector2 where
  x : ℚ
  y : ℚ
deriving DecidableEq, Repr

namespace Vector2

def zero : Vector2 := ⟨0, 0⟩

def add (a b : Vector2) : Vector2 := ⟨a.x + b.x, a.y + b.y⟩

def sub (a b : Vector2) : Vector2 := ⟨a.x - b.x, a.y - b.y⟩

/-- Componentwise scaling by a scalar (`v * s`). -/
def smul (a : Vector2) (s : ℚ) : Vector2 := ⟨a.x * s, a.y * s⟩

end Vector2

/-- 2D axis-aligned rectangle (`Rect` in src/math/mod.rs). -/
structure Rect where
  x : ℚ
  y : ℚ
  width : ℚ
  height : ℚ
deriving DecidableEq, Repr

namespace Rect

def new (x y width height : ℚ) : Rect := ⟨x, y, width, height⟩

def from_pos_size (pos size : Vector2) : Rect := ⟨pos.x, pos.y, size.x, size.y⟩

def left (r : Rect) : ℚ := r.x

def right (r : Rect) : ℚ := r.x + r.width

def top (r : Rect) : ℚ := r.y

def bottom (r : Rect) : ℚ := r.y + r.height

def center (r : Rect) : Vector2 := ⟨r.x + r.width / 2, r.y + r.height / 2⟩

def intersects (a other : Rect) : Bool :=
  decide (a.left < other.right) && decide (a.right > other.left) &&
  decide (a.top < other.bottom) && decide (a.bottom > other.top)

def intersection (a other : Rect) : Option Rect :=
  if a.intersects other then
    let l := max a.left other.left
    let r := min a.right other.right
    let t := max a.top other.top
    let b := min a.bottom other.bottom
    some (Rect.new l t (r - l) (b - t))
  else
    none

end Rect

/-- Cardinal direction (`Direction` in src/math/mod.rs). -/
inductive Direction
  | up
  | down
  | left
  | right
deriving DecidableEq, Repr

def Direction.is_horizontal : Direction → Bool
  | .left | .right => true
  | _ => false

def Direction.is_vertical : Direction → Bool
  | .up | .down => true
  | _ => false

/-! ## Association-list model of `std::collections::HashMap` -/

/-- Insert a binding: replaces the first existing binding of the key,
appends otherwise (HashMap::insert). -/
def assocInsert {α β : Type} [DecidableEq α] (k : α) (v : β) :
    List (α × β) → List (α × β)
  | [] => [(k, v)]
  | (k', v') :: rest =>
      if k' = k then (k, v) :: rest else (k', v') :: assocInsert k v rest

/-- Look up the first binding of a key (HashMap::get). -/
def assocLookup {α β : Type} [DecidableEq α] (k : α) :
    List (α × β) → Option β
  | [] => none
  | (k', v) :: rest => if k' = k then some v else assocLookup k rest

/-- Remove the first binding of a key (HashMap::remove). -/
def assocErase {α β : Type} [DecidableEq α] (k : α) :
    List (α × β) → List (α × β)
  | [] => []
  | (k', v) :: rest =>
      if k' = k then rest else (k', v) :: assocErase k rest

/-! ## collision/mod.rs -/

/-- Collision layer for organizing collision objects. -/
inductive CollisionLayer
  | world
  | player
  | enemy
  | item
  | trigger
  | projectile
deriving DecidableEq, Repr

/-- Collision object type. -/
inductive CollisionType
  | solid
  | platform
  | trigger
  | sensor
deriving DecidableEq, Repr

/-- Collision object record. -/
structure CollisionObject where
  id : ℕ
  rect : Rect
  layer : CollisionLayer
  collision_type : CollisionType
  active : Bool
  data : List (String × String)
deriving DecidableEq, Repr

namespace CollisionObject

def new (id : ℕ) (rect : Rect) (layer : CollisionLayer)
    (collision_type : CollisionType) : CollisionObject :=
  { id := id, rect := rect, layer := layer, collision_type := collision_type,
    active := true, data := [] }

/-- `self.active && self.rect.intersects(other_rect)` -/
def intersects (o : CollisionObject) (other_rect : Rect) : Bool :=
  o.active && o.rect.intersects other_rect

def intersection (o : CollisionObject) (other_rect : Rect) : Option Rect :=
  if o.intersects other_rect then o.rect.intersection other_rect else none

end CollisionObject

/-- Collision result information. -/
structure CollisionResult where
  object : CollisionObject
  direction : Direction
  penetration : ℚ
  contact_point : Vector2
deriving DecidableEq, Repr

/-- Spatial hash grid. `cells` maps a cell coordinate to the ids whose
rect overlaps that cell; `objects` is the id-keyed record store. -/
structure SpatialGrid where
  cell_size : ℚ
  cells : List ((ℤ × ℤ) × List ℕ)
  objects : List (ℕ × CollisionObject)
deriving DecidableEq, Repr

/-- Inclusive integer range `lo..=hi` as a list. -/
def intRange (lo hi : ℤ) : List ℤ :=
  (List.range (hi + 1 - lo).toNat).map (fun (i : ℕ) => lo + (i : ℤ))

namespace SpatialGrid

def new (cell_size : ℚ) : SpatialGrid :=
  { cell_size := cell_size, cells := [], objects := [] }

/-- Grid cells a rectangle overlaps: the inclusive product of the
floored column range and floored row range. -/
def get_cells_for_rect (g : SpatialGrid) (rect : Rect) : List (ℤ × ℤ) :=
  let min_x := ⌊rect.left / g.cell_size⌋
  let max_x := ⌊rect.right / g.cell_size⌋
  let min_y := ⌊rect.top / g.cell_size⌋
  let max_y := ⌊rect.bottom / g.cell_size⌋
  (intRange min_x max_x).foldr
    (fun x acc => ((intRange min_y max_y).map (fun y => (x, y))) ++ acc) []

/-- Append `id` to the bucket of one cell
(`cells.entry(cell).or_insert_with(Vec::new).push(id)`). -/
def pushCell (id : ℕ) (m : List ((ℤ × ℤ) × List ℕ)) (c : ℤ × ℤ) :
    List ((ℤ × ℤ) × List ℕ) :=
  assocInsert c ((assocLookup c m).getD [] ++ [id]) m

def add_object (g : SpatialGrid) (object : CollisionObject) : SpatialGrid :=
  let id := object.id
  let cs := g.get_cells_for_rect object.rect
  { g with
    cells := cs.foldl (pushCell id) g.cells,
    objects := assocInsert id object g.objects }

/-- Strip `id` from one cell's bucket, dropping the bucket if it empties. -/
def stripCell (id : ℕ) (m : List ((ℤ × ℤ) × List ℕ)) (c : ℤ × ℤ) :
    List ((ℤ × ℤ) × List ℕ) :=
  match assocLookup c m with
  | none => m
  | some bucket =>
      let bucket := bucket.filter (fun oid => decide (oid ≠ id))
      if bucket.isEmpty then assocErase c m else assocInsert c bucket m

def remove_object (g : SpatialGrid) (id : ℕ) :
    Option CollisionObject × SpatialGrid :=
  match assocLookup id g.objects with
  | none => (none, g)
  | some object =>
      let objects := assocErase id g.objects
      let cs := g.get_cells_for_rect object.rect
      (some object,
        { g with cells := cs.foldl (stripCell id) g.cells, objects := objects })

def update_object (g : SpatialGrid) (id : ℕ) (new_rect : Rect) : SpatialGrid :=
  match g.remove_object id with
  | (some object, g') => g'.add_object { object with rect := new_rect }
  | (none, g') => g'

/-- One candidate id of one bucket in `query_rect`: the seen-set guard,
the record lookup and the exact-intersection filter. -/
def queryStep (g : SpatialGrid) (rect : Rect)
    (acc : List ℕ × List CollisionObject) (oid : ℕ) :
    List ℕ × List CollisionObject :=
  if oid ∈ acc.1 then acc
  else
    match assocLookup oid g.objects with
    | some object =>
        if object.intersects rect then (oid :: acc.1, acc.2 ++ [object])
        else (oid :: acc.1, acc.2)
    | none => (oid :: acc.1, acc.2)

/-- Process one overlapped cell's bucket in `query_rect`. -/
def queryCell (g : SpatialGrid) (rect : Rect)
    (acc : List ℕ × List CollisionObject) (c : ℤ × ℤ) :
    List ℕ × List CollisionObject :=
  match assocLookup c g.cells with
  | none => acc
  | some bucket => bucket.foldl (queryStep g rect) acc

def query_rect (g : SpatialGrid) (rect : Rect) : List CollisionObject :=
  ((g.get_cells_for_rect rect).foldl (queryCell g rect) ([], [])).2

def object_count (g : SpatialGrid) : ℕ := g.objects.length

end SpatialGrid

/-- Main collision detection system. -/
structure CollisionSystem where
  spatial_grid : SpatialGrid
  next_id : ℕ
  layer_matrix : List ((CollisionLayer × CollisionLayer) × Bool)
deriving DecidableEq, Repr

namespace CollisionSystem

/-- `set_layer_interaction`: symmetric insert into the matrix. -/
def set_layer_interaction (s : CollisionSystem)
    (layer1 layer2 : CollisionLayer) (interact : Bool) : CollisionSystem :=
  { s with layer_matrix :=
      (assocInsert (layer2, layer1) interact
        (assocInsert (layer1, layer2) interact s.layer_matrix)) }

/-- `layers_interact`: lookup with `unwrap_or(false)`. -/
def layers_interact (s : CollisionSystem)
    (layer1 layer2 : CollisionLayer) : Bool :=
  (assocLookup (layer1, layer2) s.layer_matrix).getD false

/-- The default interaction table seeded by
`setup_default_layer_interactions`, in source order. -/
def defaultInteractions : List (CollisionLayer × CollisionLayer × Bool) :=
  [(.world, .player, true), (.world, .enemy, true), (.world, .item, false),
   (.world, .trigger, false), (.world, .projectile, true),
   (.player, .enemy, true), (.player, .item, true), (.player, .trigger, true),
   (.player, .projectile, true),
   (.enemy, .item, false), (.enemy, .trigger, true), (.enemy, .projectile, true),
   (.item, .item, false), (.item, .trigger, false), (.item, .projectile, false),
   (.trigger, .trigger, false), (.trigger, .projectile, true),
   (.projectile, .projectile, false)]

/-- Apply a list of `set_layer_interaction` calls in order. -/
def applyInteractions (s : CollisionSystem)
    (ops : List (CollisionLayer × CollisionLayer × Bool)) : CollisionSystem :=
  ops.foldl (fun s op => s.set_layer_interaction op.1 op.2.1 op.2.2) s

def setup_default_layer_interactions (s : CollisionSystem) : CollisionSystem :=
  s.applyInteractions defaultInteractions

def new : CollisionSystem :=
  setup_default_layer_interactions
    { spatial_grid := SpatialGrid.new 64, next_id := 1, layer_matrix := [] }

/-- `add_object` returns the fresh id together with the new system state. -/
def add_object (s : CollisionSystem) (rect : Rect) (layer : CollisionLayer)
    (collision_type : CollisionType) : ℕ × CollisionSystem :=
  let id := s.next_id
  let object := CollisionObject.new id rect layer collision_type
  (id, { s with next_id := s.next_id + 1,
                spatial_grid := s.spatial_grid.add_object object })

def remove_object (s : CollisionSystem) (id : ℕ) : Bool × CollisionSystem :=
  let r := s.spatial_grid.remove_object id
  (r.1.isSome, { s with spatial_grid := r.2 })

def update_object (s : CollisionSystem) (id : ℕ) (new_rect : Rect) :
    CollisionSystem :=
  { s with spatial_grid := s.spatial_grid.update_object id new_rect }

/-- Primary collision direction, from the vector between the two rects'
centers (moving minus static). -/
def get_collision_direction (moving_rect static_rect : Rect) : Direction :=
  let center1 := moving_rect.center
  let center2 := static_rect.center
  let diff := center1.sub center2
  if |diff.x| > |diff.y| then
    if diff.x > 0 then Direction.right else Direction.left
  else
    if diff.y > 0 then Direction.down else Direction.up

/-- `check_collisions`: broad-phase query, layer filter, and per-candidate
direction / penetration / contact-point computation. -/
def check_collisions (s : CollisionSystem) (rect : Rect)
    (layer : CollisionLayer) : List CollisionResult :=
  let candidates := s.spatial_grid.query_rect rect
  candidates.foldl (fun results object =>
    if !(s.layers_interact layer object.layer) then results
    else
      match object.intersection rect with
      | none => results
      | some inter =>
          let direction := get_collision_direction rect object.rect
          let penetration :=
            match direction with
            | .left | .right => inter.width
            | .up | .down => inter.height
          results ++ [{ object := object, direction := direction,
                        penetration := penetration,
                        contact_point := inter.center }]) []

/-- Single-axis positional correction along the reported direction. -/
def resolve_collision (rect : Rect) (collision : CollisionResult) : Rect :=
  match collision.direction with
  | .left => { rect with x := collision.object.rect.right }
  | .right => { rect with x := collision.object.rect.left - rect.width }
  | .up => { rect with y := collision.object.rect.bottom }
  | .down => { rect with y := collision.object.rect.top - rect.height }

def object_count (s : CollisionSystem) : ℕ := s.spatial_grid.object_count

end CollisionSystem

/-! ## physics/mod.rs -/

/-- config constants (src/lib.rs). -/
def GRAVITY : ℚ := 1000

def TERMINAL_VELOCITY : ℚ := 400

def FIXED_TIMESTEP : ℚ := 1 / 60

/-- Physics body type. -/
inductive BodyType
  | static
  | kinematic
  | dynamic
deriving DecidableEq, Repr

/-- `f32` mass: finite value or `f32::INFINITY`. -/
inductive FMass
  | finite (m : ℚ)
  | infinite
deriving DecidableEq, Repr

def FMass.is_finite : FMass → Bool
  | .finite _ => true
  | .infinite => false

/-- Physics material properties. -/
structure PhysicsMaterial where
  friction : ℚ
  restitution : ℚ
  density : ℚ
deriving DecidableEq, Repr

def PhysicsMaterial.default : PhysicsMaterial :=
  { friction := 1 / 2, restitution := 0, density := 1 }

/-- Rust `f32::clamp(self, min, max)`. -/
def clampQ (v lo hi : ℚ) : ℚ := min (max v lo) hi

/-- Physics body component. -/
structure PhysicsBody where
  id : ℕ
  body_type : BodyType
  position : Vector2
  velocity : Vector2
  acceleration : Vector2
  size : Vector2
  mass : FMass
  material : PhysicsMaterial
  collision_layer : CollisionLayer
  use_gravity : Bool
  on_ground : Bool
  active : Bool
  max_velocity : Vector2
  linear_damping : ℚ
deriving DecidableEq, Repr

namespace PhysicsBody

def new (id : ℕ) (position size : Vector2) (body_type : BodyType) :
    PhysicsBody :=
  let mass : FMass :=
    match body_type with
    | .static => .infinite
    | .kinematic => .infinite
    | .dynamic => .finite (size.x * size.y * 1)
  { id := id, body_type := body_type, position := position,
    velocity := Vector2.zero, acceleration := Vector2.zero, size := size,
    mass := mass, material := PhysicsMaterial.default,
    collision_layer := CollisionLayer.world,
    use_gravity := decide (body_type = .dynamic), on_ground := false,
    active := true, max_velocity := ⟨400, TERMINAL_VELOCITY⟩,
    linear_damping := 98 / 100 }

def get_rect (b : PhysicsBody) : Rect :=
  Rect.new b.position.x b.position.y b.size.x b.size.y

def get_center (b : PhysicsBody) : Vector2 := b.position.add (b.size.smul (1 / 2))

def apply_force (b : PhysicsBody) (force : Vector2) : PhysicsBody :=
  match b.mass with
  | .finite m =>
      if b.body_type = .dynamic then
        { b with acceleration := b.acceleration.add (force.smul (1 / m)) }
      else b
  | .infinite => b

def apply_impulse (b : PhysicsBody) (impulse : Vector2) : PhysicsBody :=
  match b.mass with
  | .finite m =>
      if b.body_type = .dynamic then
        { b with velocity := b.velocity.add (impulse.smul (1 / m)) }
      else b
  | .infinite => b

def set_velocity (b : PhysicsBody) (velocity : Vector2) : PhysicsBody :=
  if b.body_type ≠ .static then { b with velocity := velocity } else b

def set_position (b : PhysicsBody) (position : Vector2) : PhysicsBody :=
  if b.body_type ≠ .static then { b with position := position } else b

end PhysicsBody

/-- Physics world. -/
structure PhysicsWorld where
  bodies : List (ℕ × PhysicsBody)
  collision_system : CollisionSystem
  next_id : ℕ
  accumulator : ℚ
  gravity : Vector2
  paused : Bool
deriving DecidableEq, Repr

namespace PhysicsWorld

def new : PhysicsWorld :=
  { bodies := [], collision_system := CollisionSystem.new, next_id := 1,
    accumulator := 0, gravity := ⟨0, GRAVITY⟩, paused := false }

/-- `add_body` returns the assigned id and the new world. -/
def add_body (w : PhysicsWorld) (body : PhysicsBody) : ℕ × PhysicsWorld :=
  let id := w.next_id
  let body := { body with id := id }
  let collision_type : CollisionType :=
    match body.body_type with
    | .static => .solid
    | .kinematic => .solid
    | .dynamic => .solid
  let r := w.collision_system.add_object body.get_rect body.collision_layer
      collision_type
  (id, { w with next_id := w.next_id + 1, collision_system := r.2,
                bodies := assocInsert id body w.bodies })

def remove_body (w : PhysicsWorld) (id : ℕ) :
    Option PhysicsBody × PhysicsWorld :=
  match assocLookup id w.bodies with
  | some body =>
      (some body,
        { w with bodies := assocErase id w.bodies,
                 collision_system := (w.collision_system.remove_object id).2 })
  | none => (none, w)

def get_body (w : PhysicsWorld) (id : ℕ) : Option PhysicsBody :=
  assocLookup id w.bodies

/-- One body of the integration pass of `step`: gravity, velocity
integration, damping, clamping, acceleration reset. -/
def integrateStep (dt : ℚ) (w : PhysicsWorld) (body_id : ℕ) : PhysicsWorld :=
  match assocLookup body_id w.bodies with
  | none => w
  | some body =>
      if !body.active || decide (body.body_type = .static) then w
      else
        let body :=
          if body.use_gravity && decide (body.body_type = .dynamic) then
            { body with acceleration := body.acceleration.add w.gravity }
          else body
        let body :=
          if decide (body.body_type = .dynamic) then
            let v := body.velocity.add (body.acceleration.smul dt)
            let v := v.smul body.linear_damping
            let v : Vector2 :=
              ⟨clampQ v.x (-body.max_velocity.x) body.max_velocity.x,
               clampQ v.y (-body.max_velocity.y) body.max_velocity.y⟩
            { body with velocity := v }
          else body
        let body := { body with acceleration := Vector2.zero }
        { w with bodies := assocInsert body_id body w.bodies }

/-- Integration pass of `step` over the snapshot of body ids. -/
def integratePass (w : PhysicsWorld) (dt : ℚ) (body_ids : List ℕ) :
    PhysicsWorld :=
  body_ids.foldl (integrateStep dt) w

/-- State carried through the resolution loop of
`move_body_with_collision`: `(resolved_position, hit_ground, velocity)`. -/
def resolveStep (body_id : ℕ) (new_rect : Rect)
    (st : Vector2 × Bool × Vector2) (collision : CollisionResult) :
    Vector2 × Bool × Vector2 :=
  let resolved_position := st.1
  let hit_ground := st.2.1
  let velocity := st.2.2
  if collision.object.id = body_id then st
  else
    match collision.object.collision_type with
    | .solid =>
        let resolved_rect := CollisionSystem.resolve_collision new_rect collision
        let resolved_position := Vector2.mk resolved_rect.x resolved_rect.y
        (match collision.direction with
         | .left => (resolved_position, hit_ground, Vector2.mk 0 velocity.y)
         | .right => (resolved_position, hit_ground, Vector2.mk 0 velocity.y)
         | .up => (resolved_position, hit_ground, Vector2.mk velocity.x 0)
         | .down => (resolved_position, true, Vector2.mk velocity.x 0))
    | .platform =>
        if collision.direction = Direction.down ∧ velocity.y ≥ 0 then
          let resolved_rect :=
            CollisionSystem.resolve_collision new_rect collision
          (Vector2.mk resolved_position.x resolved_rect.y, true,
           Vector2.mk velocity.x 0)
        else st
    | .trigger => st
    | .sensor => st

/-- `move_body_with_collision`: tentatively place the body at the target,
query the collision system, and resolve every returned collision. -/
def move_body_with_collision (w : PhysicsWorld) (body_id : ℕ)
    (target_position : Vector2) : PhysicsWorld :=
  match assocLookup body_id w.bodies with
  | none => w
  | some body =>
      if decide (body.body_type = .static) then w
      else
        let body := { body with position := target_position }
        let new_rect := body.get_rect
        let collisions :=
          w.collision_system.check_collisions new_rect body.collision_layer
        if collisions.isEmpty then
          let body := { body with on_ground := false }
          { w with bodies := assocInsert body_id body w.bodies }
        else
          let st := collisions.foldl (resolveStep body_id new_rect)
            (target_position, false, body.velocity)
          let body := { body with position := st.1, velocity := st.2.2,
                                  on_ground := st.2.1 }
          { w with bodies := assocInsert body_id body w.bodies }

/-- One body of the move-and-resolve pass of `step`. -/
def moveStep (dt : ℚ) (w : PhysicsWorld) (body_id : ℕ) : PhysicsWorld :=
  match assocLookup body_id w.bodies with
  | none => w
  | some body =>
      if !body.active || decide (body.body_type = .static) then w
      else
        let new_position := body.position.add (body.velocity.smul dt)
        w.move_body_with_collision body_id new_position

/-- Move-and-resolve pass of `step` over the snapshot of body ids. -/
def movePass (w : PhysicsWorld) (dt : ℚ) (body_ids : List ℕ) : PhysicsWorld :=
  body_ids.foldl (moveStep dt) w

/-- End-of-step resync of the collision system to every body's rect. -/
def syncPass (w : PhysicsWorld) : PhysicsWorld :=
  { w with collision_system :=
      (w.bodies.foldl
        (fun cs p => cs.update_object p.2.id p.2.get_rect)
        w.collision_system) }

/-- One physics simulation step. -/
def step (w : PhysicsWorld) (dt : ℚ) : PhysicsWorld :=
  let body_ids := w.bodies.map Prod.fst
  let w := w.integratePass dt body_ids
  let w := w.movePass dt body_ids
  w.syncPass

/-- The catch-up loop of `update`: while the accumulator is at least
`FIXED_TIMESTEP`, run one step and subtract the timestep.  Returns the
stepped world, the leftover accumulator, and the number of steps run. -/
def updateLoop (w : PhysicsWorld) (acc : ℚ) : PhysicsWorld × ℚ × ℕ :=
  if h : FIXED_TIMESTEP ≤ acc then
    let r := updateLoop (w.step FIXED_TIMESTEP) (acc - FIXED_TIMESTEP)
    (r.1, r.2.1, r.2.2 + 1)
  else
    (w, acc, 0)
termination_by (⌊acc / FIXED_TIMESTEP⌋).toNat
decreasing_by
  have hT : (0 : ℚ) < FIXED_TIMESTEP := by norm_num [FIXED_TIMESTEP]
  have h1 : (1 : ℚ) ≤ acc / FIXED_TIMESTEP := (one_le_div hT).mpr h
  have hfl : ⌊(acc - FIXED_TIMESTEP) / FIXED_TIMESTEP⌋ =
      ⌊acc / FIXED_TIMESTEP⌋ - 1 := by
    rw [sub_div, div_self (ne_of_gt hT)]
    exact Int.floor_sub_one _
  have h2 : (1 : ℤ) ≤ ⌊acc / FIXED_TIMESTEP⌋ := by
    exact_mod_cast Int.le_floor.mpr (by exact_mod_cast h1)
  rw [hfl]
  omega

/-- `update(delta_time)` together with the number of `step` calls it ran. -/
def updateCounted (w : PhysicsWorld) (delta_time : ℚ) : PhysicsWorld × ℕ :=
  if w.paused then (w, 0)
  else
    let r := w.updateLoop (w.accumulator + delta_time)
    ({ r.1 with accumulator := r.2.1 }, r.2.2)

def update (w : PhysicsWorld) (delta_time : ℚ) : PhysicsWorld :=
  (w.updateCounted delta_time).1

def apply_force_to_body (w : PhysicsWorld) (body_id : ℕ) (force : Vector2) :
    PhysicsWorld :=
  match assocLookup body_id w.bodies with
  | none => w
  | some body =>
      { w with bodies := assocInsert body_id (body.apply_force force) w.bodies }

def apply_impulse_to_body (w : PhysicsWorld) (body_id : ℕ)
    (impulse : Vector2) : PhysicsWorld :=
  match assocLookup body_id w.bodies with
  | none => w
  | some body =>
      { w with bodies :=
          assocInsert body_id (body.apply_impulse impulse) w.bodies }

def set_body_velocity (w : PhysicsWorld) (body_id : ℕ) (velocity : Vector2) :
    PhysicsWorld :=
  match assocLookup body_id w.bodies with
  | none => w
  | some body =>
      { w with bodies :=
          assocInsert body_id (body.set_velocity velocity) w.bodies }

def set_body_position (w : PhysicsWorld) (body_id : ℕ) (position : Vector2) :
    PhysicsWorld :=
  match assocLookup body_id w.bodies with
  | none => w
  | some body =>
      let body := body.set_position position
      { w with bodies := assocInsert body_id body w.bodies,
               collision_system :=
                 (w.collision_system.update_object body_id body.get_rect) }

end PhysicsWorld

/-! ## supertux/mod.rs -/

/-- Player state enumeration. -/
inductive PlayerState
  | idle
  | walking
  | running
  | jumping
  | falling
  | ducking
  | climbing
  | dead
deriving DecidableEq, Repr

/-- Player controller component. -/
structure PlayerController where
  state : PlayerState
  move_speed : ℚ
  run_speed : ℚ
  jump_velocity : ℚ
  can_jump : Bool
  on_ground : Bool
  facing_right : Bool
  invulnerable : Bool
  invulnerability_time : ℚ
  lives : ℤ
  score : ℤ
  coins : ℤ
deriving DecidableEq, Repr

namespace PlayerController

def new : PlayerController :=
  { state := .idle, move_speed := 150, run_speed := 250,
    jump_velocity := -400, can_jump := true, on_ground := false,
    facing_right := true, invulnerable := false, invulnerability_time := 0,
    lives := 3, score := 0, coins := 0 }

/-- `take_damage`: decrement lives and start the 2-second invulnerability
window unless invulnerable; transition to Dead when lives reach 0. -/
def take_damage (c : PlayerController) : PlayerController :=
  if !c.invulnerable then
    let c := { c with lives := c.lives - 1, invulnerable := true,
                      invulnerability_time := 2 }
    if c.lives ≤ 0 then { c with state := .dead } else c
  else c

end PlayerController

/-! ## Claim-support definitions -/

namespace PhysicsWorld

/-- `n` successive `step(FIXED_TIMESTEP)` calls, first call first. -/
def stepN (w : PhysicsWorld) : ℕ → PhysicsWorld
  | 0 => w
  | n + 1 => (w.step FIXED_TIMESTEP).stepN n

/-- The accumulator arithmetic of `updateLoop`, world-free: the leftover
accumulator and the number of steps the loop would run. -/
def accRun (acc : ℚ) : ℚ × ℕ :=
  if h : FIXED_TIMESTEP ≤ acc then
    let r := accRun (acc - FIXED_TIMESTEP)
    (r.1, r.2 + 1)
  else
    (acc, 0)
termination_by (⌊acc / FIXED_TIMESTEP⌋).toNat
decreasing_by
  have hT : (0 : ℚ) < FIXED_TIMESTEP := by norm_num [FIXED_TIMESTEP]
  have h1 : (1 : ℚ) ≤ acc / FIXED_TIMESTEP := (one_le_div hT).mpr h
  have hfl : ⌊(acc - FIXED_TIMESTEP) / FIXED_TIMESTEP⌋ =
      ⌊acc / FIXED_TIMESTEP⌋ - 1 := by
    rw [sub_div, div_self (ne_of_gt hT)]
    exact Int.floor_sub_one _
  have h2 : (1 : ℤ) ≤ ⌊acc / FIXED_TIMESTEP⌋ := by
    exact_mod_cast Int.le_floor.mpr (by exact_mod_cast h1)
  rw [hfl]
  omega

/-- A sequence of `update` calls, summing the per-call step counts. -/
def updateCountFold : PhysicsWorld → List ℚ → PhysicsWorld × ℕ
  | w, [] => (w, 0)
  | w, d :: rest =>
      let r := w.updateCounted d
      let s := updateCountFold r.1 rest
      (s.1, r.2 + s.2)

end PhysicsWorld

/-- The operations quantified over by the static-body claim:
`set_body_position`, `set_body_velocity` and whole physics steps. -/
inductive WorldOp
  | setPos (id : ℕ) (p : Vector2)
  | setVel (id : ℕ) (v : Vector2)
  | runStep (dt : ℚ)
deriving DecidableEq, Repr

def applyWorldOp (w : PhysicsWorld) : WorldOp → PhysicsWorld
  | .setPos id p => w.set_body_position id p
  | .setVel id v => w.set_body_velocity id v
  | .runStep dt => w.step dt

def applyWorldOps (w : PhysicsWorld) (ops : List WorldOp) : PhysicsWorld :=
  ops.foldl applyWorldOp w

/-- The world-building operations quantified over by the id-lockstep
claim: `add_body` and `remove_body`. -/
inductive BodyOp
  | add (b : PhysicsBody)
  | remove (id : ℕ)
deriving DecidableEq, Repr

def applyBodyOp (w : PhysicsWorld) : BodyOp → PhysicsWorld
  | .add b => (w.add_body b).2
  | .remove id => (w.remove_body id).2

def applyBodyOps (w : PhysicsWorld) (ops : List BodyOp) : PhysicsWorld :=
  ops.foldl applyBodyOp w

/-- Id bookkeeping invariant of a world whose collision objects are
created only through `add_body`: the two id counters agree, the body and
shadow-object stores are well-keyed, and every body has a shadow
collision object stored under the body's own id. -/
def idInv (w : PhysicsWorld) : Prop :=
  w.next_id = w.collision_system.next_id ∧
  (w.bodies.map Prod.fst).Nodup ∧
  (w.collision_system.spatial_grid.objects.map Prod.fst).Nodup ∧
  ∀ id b, assocLookup id w.bodies = some b → b.id = id ∧
    ∃ obj, assocLookup id w.collision_system.spatial_grid.objects =
      some obj ∧ obj.id = id

/-- Concrete collision scenario for witnesses: a 200×100 object on the
World layer, sitting in grid cell (1,1) among others. -/
def sampleObject (t : CollisionType) : CollisionObject :=
  CollisionObject.new 1 (Rect.new 0 0 200 100) CollisionLayer.world t

/-- A collision system holding exactly `sampleObject t`, with the
Player↔World interaction enabled. -/
def sampleSystem (t : CollisionType) : CollisionSystem :=
  { spatial_grid :=
      { cell_size := 64, cells := [((1, 1), [1])],
        objects := [(1, sampleObject t)] },
    next_id := 2,
    layer_matrix := [((CollisionLayer.player, CollisionLayer.world), true)] }

/-- A 32×32 dynamic player body moving with velocity (100, 50). -/
def sampleBody : PhysicsBody :=
  { PhysicsBody.new 7 ⟨90, 40⟩ ⟨32, 32⟩ .dynamic with
      velocity := ⟨100, 50⟩, collision_layer := CollisionLayer.player }

/-- A world holding `sampleBody` (id 7) and `sampleObject t` (id 1). -/
def sampleWorld (t : CollisionType) : PhysicsWorld :=
  { PhysicsWorld.new with bodies := [(7, sampleBody)],
                          collision_system := sampleSystem t }

/-- The collision `check_collisions` reports when `sampleBody` is moved
to (90, 80): a Down-direction hit on `sampleObject t`. -/
def sampleResult (t : CollisionType) : CollisionResult :=
  { object := sampleObject t, direction := Direction.down,
    penetration := 20, contact_point := ⟨106, 90⟩ }

/-- A 16×16 static body at (10, 20). -/
def staticSampleBody : PhysicsBody :=
  PhysicsBody.new 3 ⟨10, 20⟩ ⟨16, 16⟩ BodyType.static

/-- A world holding only `staticSampleBody` under id 3. -/
def staticSampleWorld : PhysicsWorld :=
  { PhysicsWorld.new with bodies := [(3, staticSampleBody)] }

/-! ## Association-list lemmas -/

theorem assocLookup_insert_self {α β : Type} [DecidableEq α] (k : α) (v : β)
    (m : List (α × β)) : assocLookup k (assocInsert k v m) = some v := by
  induction m with
  | nil => simp [assocInsert, assocLookup]
  | cons hd tl ih =>
      obtain ⟨k', v'⟩ := hd
      by_cases h : k' = k
      · simp [assocInsert, assocLookup, h]
      · simp [assocInsert, assocLookup, h, ih]

theorem assocLookup_insert_of_ne {α β : Type} [DecidableEq α] {k k' : α}
    (v : β) (m : List (α × β)) (h : k' ≠ k) :
    assocLookup k (assocInsert k' v m) = assocLookup k m := by
  induction m with
  | nil => simp [assocInsert, assocLookup, h]
  | cons hd tl ih =>
      obtain ⟨k'', v''⟩ := hd
      by_cases h2 : k'' = k'
      · subst h2
        simp [assocInsert, assocLookup, h]
      · by_cases h3 : k'' = k
        · simp [assocInsert, assocLookup, h2, h3, Ne.symm h]
        · simp [assocInsert, assocLookup, h2, h3, ih]

theorem assocLookup_erase_of_ne {α β : Type} [DecidableEq α] {k k' : α}
    (m : List (α × β)) (h : k' ≠ k) :
    assocLookup k (assocErase k' m) = assocLookup k m := by
  induction m with
  | nil => simp [assocErase, assocLookup]
  | cons hd tl ih =>
      obtain ⟨k'', v''⟩ := hd
      by_cases h2 : k'' = k'
      · subst h2
        simp [assocErase, assocLookup, h]
      · by_cases h3 : k'' = k
        · simp [assocErase, assocLookup, h2, h3, Ne.symm h]
        · simp [assocErase, assocLookup, h2, h3, ih]

/-- Keys of an association list are pairwise distinct. -/
def keysNodup {α β : Type} (m : List (α × β)) : Prop :=
  (m.map Prod.fst).Nodup

theorem keysNodup_nil {α β : Type} : keysNodup ([] : List (α × β)) := by
  simp [keysNodup]

theorem assocInsert_keys_subset {α β : Type} [DecidableEq α] (k : α) (v : β)
    (m : List (α × β)) :
    ∀ x ∈ (assocInsert k v m).map Prod.fst, x = k ∨ x ∈ m.map Prod.fst := by
  induction m with
  | nil =>
      intro x hx
      simp [assocInsert] at hx
      exact Or.inl hx
  | cons hd tl ih =>
      obtain ⟨k', v'⟩ := hd
      by_cases h : k' = k
      · subst h
        simp only [assocInsert, if_pos rfl, List.map_cons]
        intro x hx
        rcases List.mem_cons.mp hx with h1 | h1
        · exact Or.inl h1
        · exact Or.inr (List.mem_cons_of_mem _ h1)
      · simp only [assocInsert, h, if_false, List.map_cons]
        intro x hx
        rcases List.mem_cons.mp hx with h1 | h1
        · exact Or.inr (List.mem_cons.mpr (Or.inl h1))
        · rcases ih x h1 with h2 | h2
          · exact Or.inl h2
          · exact Or.inr (List.mem_cons_of_mem _ h2)

theorem assocErase_sublist {α β : Type} [DecidableEq α] (k : α)
    (m : List (α × β)) : ∀ x ∈ assocErase k m, x ∈ m := by
  induction m with
  | nil => intro x hx; simpa [assocErase] using hx
  | cons hd tl ih =>
      obtain ⟨k', v'⟩ := hd
      intro x hx
      by_cases h : k' = k
      · simp only [assocErase, h, if_pos rfl] at hx
        exact List.mem_cons_of_mem _ hx
      · simp only [assocErase, h, if_false, List.mem_cons] at hx
        rcases hx with hx | hx
        · simp [hx]
        · exact List.mem_cons_of_mem _ (ih x hx)

theorem keysNodup_insert {α β : Type} [DecidableEq α] (k : α) (v : β)
    {m : List (α × β)} (h : keysNodup m) : keysNodup (assocInsert k v m) := by
  induction m with
  | nil => simp [assocInsert, keysNodup]
  | cons hd tl ih =>
      obtain ⟨k', v'⟩ := hd
      simp only [keysNodup, List.map_cons, List.nodup_cons] at h
      by_cases h2 : k' = k
      · subst h2
        simpa [assocInsert, keysNodup] using h
      · have htl := ih h.2
        simp only [assocInsert, h2, if_false, keysNodup, List.map_cons,
          List.nodup_cons]
        refine ⟨?_, htl⟩
        intro hc
        rw [List.mem_map] at hc
        obtain ⟨x, hx, hxk⟩ := hc
        rcases assocInsert_keys_subset k v tl x.1
            (List.mem_map_of_mem Prod.fst hx) with h4 | h4
        · exact h2 (by rw [← hxk, h4])
        · exact h.1 (hxk ▸ h4)

theorem keysNodup_erase {α β : Type} [DecidableEq α] (k : α)
    {m : List (α × β)} (h : keysNodup m) : keysNodup (assocErase k m) := by
  induction m with
  | nil => simp [assocErase, keysNodup]
  | cons hd tl ih =>
      obtain ⟨k', v'⟩ := hd
      simp only [keysNodup, List.map_cons, List.nodup_cons] at h
      by_cases h2 : k' = k
      · simpa [assocErase, h2, keysNodup] using h.2
      · have htl := ih h.2
        simp only [assocErase, h2, if_false, keysNodup, List.map_cons,
          List.nodup_cons]
        refine ⟨?_, htl⟩
        intro hc
        rw [List.mem_map] at hc
        obtain ⟨x, hx, hxk⟩ := hc
        exact h.1 (hxk ▸ List.mem_map_of_mem Prod.fst
          (assocErase_sublist k tl x hx))

theorem assocLookup_erase_self {α β : Type} [DecidableEq α] (k : α)
    {m : List (α × β)} (h : keysNodup m) :
    assocLookup k (assocErase k m) = none := by
  induction m with
  | nil => simp [assocErase, assocLookup]
  | cons hd tl ih =>
      obtain ⟨k', v'⟩ := hd
      simp only [keysNodup, List.map_cons, List.nodup_cons] at h
      by_cases h2 : k' = k
      · subst h2
        simp only [assocErase, if_pos rfl]
        clear ih
        induction tl with
        | nil => simp [assocLookup]
        | cons hd2 tl2 ih2 =>
            obtain ⟨k2, v2⟩ := hd2
            simp only [List.map_cons, List.mem_cons, not_or,
              List.nodup_cons] at h
            by_cases h3 : k2 = k'
            · exact absurd h3.symm h.1.1
            · simp only [assocLookup, h3, if_false]
              exact ih2 ⟨fun hc => h.1.2 hc, h.2.2⟩
      · simp only [assocErase, h2, if_false, assocLookup, h2]
        exact ih h.2

/-- Generic foldl preservation of a predicate on the accumulator. -/
theorem foldl_preserve {σ α : Type} {f : σ → α → σ} {P : σ → Prop}
    (h : ∀ s a, P s → P (f s a)) :
    ∀ (l : List α) (s : σ), P s → P (l.foldl f s) := by
  intro l
  induction l with
  | nil => intro s hs; exact hs
  | cons hd tl ih => intro s hs; exact ih (f s hd) (h s hd hs)

/-! ## C9: player damage -/

/-- **C9.** Calling `take_damage` on a `PlayerController` with `lives = 1`
while not invulnerable sets `lives` to 0, the state to Dead, and starts a
2-second invulnerability window; any `take_damage` call made while
invulnerable leaves the whole controller (in particular lives and state)
unchanged. -/
theorem player_take_damage_spec :
    (∀ c : PlayerController, c.invulnerable = false → c.lives = 1 →
      (c.take_damage.lives = 0 ∧ c.take_damage.state = PlayerState.dead ∧
       c.take_damage.invulnerable = true ∧
       c.take_damage.invulnerability_time = 2)) ∧
    (∀ c : PlayerController, c.invulnerable = true → c.take_damage = c) := by
  constructor
  · intro c hinv hlives
    simp [PlayerController.take_damage, hinv, hlives]
  · intro c hinv
    simp [PlayerController.take_damage, hinv]

/-- Witness for C9 at a concrete controller with one life. -/
theorem player_take_damage_spec_witness :
    (({ PlayerController.new with lives := 1 } :
        PlayerController).take_damage.lives = 0 ∧
     ({ PlayerController.new with lives := 1 } :
        PlayerController).take_damage.state = PlayerState.dead) ∧
    ({ PlayerController.new with invulnerable := true } :
        PlayerController).take_damage =
      { PlayerController.new with invulnerable := true } := by
  refine ⟨⟨?_, ?_⟩, ?_⟩
  · exact (player_take_damage_spec.1 _ rfl rfl).1
  · exact (player_take_damage_spec.1 _ rfl rfl).2.1
  · exact player_take_damage_spec.2 _ rfl

/-! ## C8: unknown body ids are silent no-ops -/

/-- **C8.** For every body id not present in the world, `apply_force`,
`apply_impulse`, `set_velocity` and `set_position` (the world-level
`*_to_body` operations) return the world completely unchanged. -/
theorem unknown_body_id_noop (w : PhysicsWorld) (body_id : ℕ)
    (force impulse velocity position : Vector2)
    (h : assocLookup body_id w.bodies = none) :
    w.apply_force_to_body body_id force = w ∧
    w.apply_impulse_to_body body_id impulse = w ∧
    w.set_body_velocity body_id velocity = w ∧
    w.set_body_position body_id position = w := by
  refine ⟨?_, ?_, ?_, ?_⟩ <;>
    simp [PhysicsWorld.apply_force_to_body, PhysicsWorld.apply_impulse_to_body,
          PhysicsWorld.set_body_velocity, PhysicsWorld.set_body_position, h]

/-- Witness for C8: id 5 is absent from a freshly created world. -/
theorem unknown_body_id_noop_witness :
    PhysicsWorld.new.apply_force_to_body 5 ⟨1, 2⟩ = PhysicsWorld.new ∧
    PhysicsWorld.new.apply_impulse_to_body 5 ⟨1, 2⟩ = PhysicsWorld.new ∧
    PhysicsWorld.new.set_body_velocity 5 ⟨1, 2⟩ = PhysicsWorld.new ∧
    PhysicsWorld.new.set_body_position 5 ⟨1, 2⟩ = PhysicsWorld.new :=
  unknown_body_id_noop PhysicsWorld.new 5 ⟨1, 2⟩ ⟨1, 2⟩ ⟨1, 2⟩ ⟨1, 2⟩ rfl

/-! ## C6: layer interaction matrix -/

/-- **C6.** `set_layer_interaction(L1, L2, v)` makes both
`layers_interact(L1, L2)` and `layers_interact(L2, L1)` return `v`; and
for any layer pair that was never set — neither by the construction-time
seeding nor by any later sequence of `set_layer_interaction` calls —
`layers_interact` returns `false`. -/
theorem layer_matrix_spec :
    (∀ (s : CollisionSystem) (l1 l2 : CollisionLayer) (v : Bool),
      (s.set_layer_interaction l1 l2 v).layers_interact l1 l2 = v ∧
      (s.set_layer_interaction l1 l2 v).layers_interact l2 l1 = v) ∧
    (∀ (s : CollisionSystem)
      (ops : List (CollisionLayer × CollisionLayer × Bool))
      (l1 l2 : CollisionLayer),
      assocLookup (l1, l2) s.layer_matrix = none →
      (∀ op ∈ ops, ¬(op.1 = l1 ∧ op.2.1 = l2) ∧ ¬(op.1 = l2 ∧ op.2.1 = l1)) →
      (s.applyInteractions ops).layers_interact l1 l2 = false) := by
  constructor
  · intro s l1 l2 v
    constructor
    · by_cases h : (l2, l1) = (l1, l2)
      · simp [CollisionSystem.set_layer_interaction,
              CollisionSystem.layers_interact, h, assocLookup_insert_self]
      · simp [CollisionSystem.set_layer_interaction,
              CollisionSystem.layers_interact,
              assocLookup_insert_of_ne _ _ h, assocLookup_insert_self]
    · simp [CollisionSystem.set_layer_interaction,
            CollisionSystem.layers_interact, assocLookup_insert_self]
  · intro s ops
    induction ops generalizing s with
    | nil =>
        intro l1 l2 hnone _
        simp [CollisionSystem.applyInteractions,
              CollisionSystem.layers_interact, hnone]
    | cons op rest ih =>
        intro l1 l2 hnone hops
        have hop := hops op (by simp)
        have h1 : (op.1, op.2.1) ≠ (l1, l2) := by
          intro hc
          exact hop.1 ⟨congrArg Prod.fst hc, congrArg Prod.snd hc⟩
        have h2 : (op.2.1, op.1) ≠ (l1, l2) := by
          intro hc
          exact hop.2 ⟨congrArg Prod.snd hc, congrArg Prod.fst hc⟩
        have hnone' : assocLookup (l1, l2)
            (s.set_layer_interaction op.1 op.2.1 op.2.2).layer_matrix = none := by
          simp [CollisionSystem.set_layer_interaction,
                assocLookup_insert_of_ne _ _ h2,
                assocLookup_insert_of_ne _ _ h1, hnone]
        have hstep : CollisionSystem.applyInteractions s (op :: rest) =
            CollisionSystem.applyInteractions
              (s.set_layer_interaction op.1 op.2.1 op.2.2) rest := by
          simp [CollisionSystem.applyInteractions]
        rw [hstep]
        exact ih _ l1 l2 hnone' (fun o ho => hops o (by simp [ho]))

/-- Witness for C6: setting World↔Player on the default system, and a
diagonal pair (Player, Player) never touched by the seeding. -/
theorem layer_matrix_spec_witness :
    (CollisionSystem.new.set_layer_interaction CollisionLayer.world
        CollisionLayer.player false).layers_interact CollisionLayer.player
        CollisionLayer.world = false ∧
    CollisionSystem.new.layers_interact CollisionLayer.player
        CollisionLayer.player = false := by
  constructor
  · exact (layer_matrix_spec.1 CollisionSystem.new .world .player false).2
  · have h := layer_matrix_spec.2
      { spatial_grid := SpatialGrid.new 64, next_id := 1, layer_matrix := [] }
      CollisionSystem.defaultInteractions .player .player rfl (by decide)
    exact h

/-! ## C3: collision direction tie-break -/

/-- **C3.** For every pair of intersecting rects the collision direction
is derived from the vector between the two centers (moving minus static):
horizontal (Right when `dx > 0`, else Left) exactly when `|dx| > |dy|`,
vertical (Down when `dy > 0`, else Up) otherwise; in particular an exact
tie `|dx| = |dy|` always resolves to a vertical direction. -/
theorem collision_direction_tie_break (moving_rect static_rect : Rect)
    (hinter : moving_rect.intersects static_rect = true) :
    (CollisionSystem.get_collision_direction moving_rect static_rect =
      (if |(moving_rect.center.sub static_rect.center).x| >
          |(moving_rect.center.sub static_rect.center).y| then
        (if (moving_rect.center.sub static_rect.center).x > 0 then
          Direction.right else Direction.left)
      else
        (if (moving_rect.center.sub static_rect.center).y > 0 then
          Direction.down else Direction.up))) ∧
    (|(moving_rect.center.sub static_rect.center).x| =
        |(moving_rect.center.sub static_rect.center).y| →
      (CollisionSystem.get_collision_direction moving_rect
          static_rect).is_vertical = true) := by
  constructor
  · rfl
  · intro htie
    simp only [CollisionSystem.get_collision_direction, htie, lt_irrefl,
      gt_iff_lt, if_false]
    by_cases h : (moving_rect.center.sub static_rect.center).y > 0
    · simp [h, Direction.is_vertical]
    · simp [h, Direction.is_vertical]

/-- Witness for C3 at two overlapping unit-offset squares whose center
difference is exactly diagonal: the tie resolves vertically (Up here). -/
theorem collision_direction_tie_break_witness :
    CollisionSystem.get_collision_direction (Rect.new 0 0 2 2)
      (Rect.new 1 1 2 2) = Direction.up ∧
    (CollisionSystem.get_collision_direction (Rect.new 0 0 2 2)
      (Rect.new 1 1 2 2)).is_vertical = true := by
  have h := collision_direction_tie_break (Rect.new 0 0 2 2)
    (Rect.new 1 1 2 2) (by
      norm_num [Rect.intersects, Rect.new, Rect.left, Rect.right, Rect.top,
        Rect.bottom])
  refine ⟨?_, h.2 (by norm_num [Rect.center, Rect.new, Vector2.sub])⟩
  rw [h.1]
  norm_num [Rect.center, Rect.new, Vector2.sub]

/-! ## C1: solid collision zeroes the resolved-axis velocity component -/

/-- **C1.** When `move_body_with_collision` (the resolution part of a
physics step, src/physics/mod.rs:309-353) finds a single Solid collision
for a non-Static body, it zeroes exactly the velocity component along the
resolved axis and leaves the orthogonal component untouched; a
Down-direction solid hit additionally sets `on_ground` for the step
(a hit from any other direction leaves it cleared). -/
theorem solid_collision_zeroes_resolved_axis
    (w : PhysicsWorld) (body_id : ℕ) (target : Vector2)
    (body : PhysicsBody) (r : CollisionResult)
    (hb : assocLookup body_id w.bodies = some body)
    (hstatic : body.body_type ≠ BodyType.static)
    (hc : w.collision_system.check_collisions
        (PhysicsBody.get_rect { body with position := target })
        body.collision_layer = [r])
    (hid : r.object.id ≠ body_id)
    (hsolid : r.object.collision_type = CollisionType.solid) :
    ∃ body', assocLookup body_id
        (w.move_body_with_collision body_id target).bodies = some body' ∧
      ((r.direction = Direction.left ∨ r.direction = Direction.right) →
        body'.velocity = ⟨0, body.velocity.y⟩ ∧ body'.on_ground = false) ∧
      (r.direction = Direction.up →
        body'.velocity = ⟨body.velocity.x, 0⟩ ∧ body'.on_ground = false) ∧
      (r.direction = Direction.down →
        body'.velocity = ⟨body.velocity.x, 0⟩ ∧ body'.on_ground = true) := by
  unfold PhysicsWorld.move_body_with_collision
  rw [hb]
  simp only [hstatic, decide_eq_true_eq, if_neg, hc, List.isEmpty_cons,
    Bool.false_eq_true, if_false, List.foldl_cons, List.foldl_nil]
  unfold PhysicsWorld.resolveStep
  simp only [hid, if_neg, hsolid]
  cases hdir : r.direction with
  | left =>
      refine ⟨_, assocLookup_insert_self _ _ _, ?_⟩
      simp
  | right =>
      refine ⟨_, assocLookup_insert_self _ _ _, ?_⟩
      simp
  | up =>
      refine ⟨_, assocLookup_insert_self _ _ _, ?_⟩
      simp
  | down =>
      refine ⟨_, assocLookup_insert_self _ _ _, ?_⟩
      simp

/-- Witness for C1: the dynamic body with velocity (100, 50) moved onto
the Solid sample object in a Down-direction hit ends with velocity
(100, 0) and `on_ground = true`. -/
theorem solid_collision_zeroes_resolved_axis_witness :
    ∃ body', assocLookup 7
        ((sampleWorld CollisionType.solid).move_body_with_collision 7
          ⟨90, 80⟩).bodies = some body' ∧
      body'.velocity = ⟨100, 0⟩ ∧ body'.on_ground = true := by
  obtain ⟨b', hb', _, _, h3⟩ :=
    solid_collision_zeroes_resolved_axis (sampleWorld CollisionType.solid) 7
      ⟨90, 80⟩ sampleBody (sampleResult CollisionType.solid)
      rfl
      (by decide)
      (by
        norm_num [sampleWorld, sampleSystem, sampleObject, sampleBody,
          sampleResult, PhysicsWorld.new, PhysicsBody.new, PhysicsBody.get_rect,
          CollisionSystem.check_collisions, SpatialGrid.query_rect,
          SpatialGrid.get_cells_for_rect, SpatialGrid.queryCell,
          SpatialGrid.queryStep, intRange, assocLookup,
          CollisionSystem.layers_interact, CollisionObject.intersects,
          CollisionObject.intersection, CollisionObject.new, Rect.intersects,
          Rect.intersection, Rect.left, Rect.right, Rect.top, Rect.bottom,
          Rect.center, Rect.new, CollisionSystem.get_collision_direction,
          Vector2.sub, List.range, List.range.loop])
      (by decide)
      rfl
  have hvel : sampleBody.velocity = ⟨100, 50⟩ := rfl
  exact ⟨b', hb', by rw [(h3 rfl).1, hvel], (h3 rfl).2⟩

/-! ## C2: one-way platform rule -/

/-- **C2.** When `move_body_with_collision` finds a single Platform
collision for a non-Static body, the resolution fires exactly when the
computed collision direction is Down and the body's vertical velocity is
≥ 0: in that case the vertical position is corrected, the vertical
velocity zeroed and `on_ground` set; in every other case — in particular
for a body moving upward (`vy < 0`) — the body is left at the target
position with its velocity unchanged (it passes through) and `on_ground`
cleared. -/
theorem platform_one_way_rule
    (w : PhysicsWorld) (body_id : ℕ) (target : Vector2)
    (body : PhysicsBody) (r : CollisionResult)
    (hb : assocLookup body_id w.bodies = some body)
    (hstatic : body.body_type ≠ BodyType.static)
    (hc : w.collision_system.check_collisions
        (PhysicsBody.get_rect { body with position := target })
        body.collision_layer = [r])
    (hid : r.object.id ≠ body_id)
    (hplat : r.object.collision_type = CollisionType.platform) :
    ∃ body', assocLookup body_id
        (w.move_body_with_collision body_id target).bodies = some body' ∧
      (¬(r.direction = Direction.down ∧ body.velocity.y ≥ 0) →
        body' = { body with position := target, on_ground := false }) ∧
      ((r.direction = Direction.down ∧ body.velocity.y ≥ 0) →
        body'.position = ⟨target.x,
          (CollisionSystem.resolve_collision
            (PhysicsBody.get_rect { body with position := target }) r).y⟩ ∧
        body'.velocity = ⟨body.velocity.x, 0⟩ ∧ body'.on_ground = true) := by
  unfold PhysicsWorld.move_body_with_collision
  rw [hb]
  simp only [hstatic, decide_eq_true_eq, if_neg, hc, List.isEmpty_cons,
    Bool.false_eq_true, if_false, List.foldl_cons, List.foldl_nil]
  unfold PhysicsWorld.resolveStep
  simp only [hid, if_neg, hplat]
  by_cases hcond : r.direction = Direction.down ∧ body.velocity.y ≥ 0
  · refine ⟨_, assocLookup_insert_self _ _ _, ?_, ?_⟩
    · intro hn; exact absurd hcond hn
    · intro _
      simp [hcond]
  · refine ⟨_, assocLookup_insert_self _ _ _, ?_, ?_⟩
    · intro _
      simp [hcond]
    · intro hp; exact absurd hp hcond

/-- Witness for C2: the falling body (vy = 50 ≥ 0) in a Down-direction
hit on the Platform sample object is resolved to sit on top of it
(y = -32) with vertical velocity zeroed and `on_ground = true`. -/
theorem platform_one_way_rule_witness :
    ∃ body', assocLookup 7
        ((sampleWorld CollisionType.platform).move_body_with_collision 7
          ⟨90, 80⟩).bodies = some body' ∧
      body'.position = ⟨90, -32⟩ ∧ body'.velocity = ⟨100, 0⟩ ∧
      body'.on_ground = true := by
  obtain ⟨b', hb', _, h2⟩ :=
    platform_one_way_rule (sampleWorld CollisionType.platform) 7
      ⟨90, 80⟩ sampleBody (sampleResult CollisionType.platform)
      rfl
      (by decide)
      (by
        norm_num [sampleWorld, sampleSystem, sampleObject, sampleBody,
          sampleResult, PhysicsWorld.new, PhysicsBody.new, PhysicsBody.get_rect,
          CollisionSystem.check_collisions, SpatialGrid.query_rect,
          SpatialGrid.get_cells_for_rect, SpatialGrid.queryCell,
          SpatialGrid.queryStep, intRange, assocLookup,
          CollisionSystem.layers_interact, CollisionObject.intersects,
          CollisionObject.intersection, CollisionObject.new, Rect.intersects,
          Rect.intersection, Rect.left, Rect.right, Rect.top, Rect.bottom,
          Rect.center, Rect.new, CollisionSystem.get_collision_direction,
          Vector2.sub, List.range, List.range.loop])
      (by decide)
      rfl
  have hcond : (sampleResult CollisionType.platform).direction =
      Direction.down ∧ sampleBody.velocity.y ≥ 0 := by
    constructor
    · rfl
    · norm_num [sampleBody, PhysicsBody.new]
  obtain ⟨hpos, hvel, hg⟩ := h2 hcond
  refine ⟨b', hb', ?_, ?_, hg⟩
  · rw [hpos]
    norm_num [CollisionSystem.resolve_collision, sampleResult, sampleObject,
      CollisionObject.new, PhysicsBody.get_rect, sampleBody, PhysicsBody.new,
      Rect.new, Rect.top]
  · rw [hvel]
    rfl

/-! ## C5: static bodies never move -/

theorem static_preserved_set_velocity {w : PhysicsWorld} {id : ℕ}
    {b : PhysicsBody} (hb : assocLookup id w.bodies = some b)
    (hs : b.body_type = BodyType.static) (id' : ℕ) (v : Vector2) :
    assocLookup id (w.set_body_velocity id' v).bodies = some b := by
  unfold PhysicsWorld.set_body_velocity
  cases h : assocLookup id' w.bodies with
  | none => exact hb
  | some body' =>
      by_cases he : id' = id
      · subst he
        rw [h] at hb
        injection hb with hb
        subst hb
        simp [PhysicsBody.set_velocity, hs, assocLookup_insert_self]
      · simp [assocLookup_insert_of_ne _ _ he, hb]

theorem static_preserved_set_position {w : PhysicsWorld} {id : ℕ}
    {b : PhysicsBody} (hb : assocLookup id w.bodies = some b)
    (hs : b.body_type = BodyType.static) (id' : ℕ) (p : Vector2) :
    assocLookup id (w.set_body_position id' p).bodies = some b := by
  unfold PhysicsWorld.set_body_position
  cases h : assocLookup id' w.bodies with
  | none => exact hb
  | some body' =>
      by_cases he : id' = id
      · subst he
        rw [h] at hb
        injection hb with hb
        subst hb
        simp [PhysicsBody.set_position, hs, assocLookup_insert_self]
      · simp [assocLookup_insert_of_ne _ _ he, hb]

theorem static_preserved_move_body {w : PhysicsWorld} {id : ℕ}
    {b : PhysicsBody} (hb : assocLookup id w.bodies = some b)
    (hs : b.body_type = BodyType.static) (id' : ℕ) (t : Vector2) :
    assocLookup id (w.move_body_with_collision id' t).bodies = some b := by
  unfold PhysicsWorld.move_body_with_collision
  cases h : assocLookup id' w.bodies with
  | none => exact hb
  | some body' =>
      by_cases he : id' = id
      · subst he
        rw [h] at hb
        injection hb with hb
        subst hb
        simp [hs]
        exact h
      · split
        · exact hb
        · split
          · exact hb
          · dsimp only
            split <;> simp [assocLookup_insert_of_ne _ _ he, hb]

theorem static_preserved_integratePass {w : PhysicsWorld} {id : ℕ}
    {b : PhysicsBody} (hb : assocLookup id w.bodies = some b)
    (hs : b.body_type = BodyType.static) (dt : ℚ) (ids : List ℕ) :
    assocLookup id (w.integratePass dt ids).bodies = some b := by
  unfold PhysicsWorld.integratePass
  refine foldl_preserve
    (P := fun w : PhysicsWorld => assocLookup id w.bodies = some b)
    ?_ ids w hb
  intro w' id' hw'
  unfold PhysicsWorld.integrateStep
  cases h : assocLookup id' w'.bodies with
  | none => simpa [h] using hw'
  | some body' =>
      by_cases he : id' = id
      · subst he
        rw [h] at hw'
        injection hw' with hw'
        subst hw'
        simp [h, hs]
      · simp only [h]
        split
        · exact hw'
        · simp [assocLookup_insert_of_ne _ _ he, hw']

theorem static_preserved_movePass {w : PhysicsWorld} {id : ℕ}
    {b : PhysicsBody} (hb : assocLookup id w.bodies = some b)
    (hs : b.body_type = BodyType.static) (dt : ℚ) (ids : List ℕ) :
    assocLookup id (w.movePass dt ids).bodies = some b := by
  unfold PhysicsWorld.movePass
  refine foldl_preserve
    (P := fun w : PhysicsWorld => assocLookup id w.bodies = some b)
    ?_ ids w hb
  intro w' id' hw'
  unfold PhysicsWorld.moveStep
  cases h : assocLookup id' w'.bodies with
  | none => simpa [h] using hw'
  | some body' =>
      simp only [h]
      split
      · exact hw'
      · exact static_preserved_move_body hw' hs id' _

theorem static_preserved_step {w : PhysicsWorld} {id : ℕ}
    {b : PhysicsBody} (hb : assocLookup id w.bodies = some b)
    (hs : b.body_type = BodyType.static) (dt : ℚ) :
    assocLookup id (w.step dt).bodies = some b := by
  unfold PhysicsWorld.step
  have h1 := static_preserved_integratePass hb hs dt (w.bodies.map Prod.fst)
  have h2 := static_preserved_movePass h1 hs dt (w.bodies.map Prod.fst)
  simpa [PhysicsWorld.syncPass] using h2

/-- **C5.** A Static body's binding — in particular its position — is
unchanged by any sequence of `set_body_position` calls,
`set_body_velocity` calls, and physics steps. -/
theorem static_body_never_moves (w : PhysicsWorld) (id : ℕ) (b : PhysicsBody)
    (ops : List WorldOp) (hb : (w.get_body id) = some b)
    (hs : b.body_type = BodyType.static) :
    (applyWorldOps w ops).get_body id = some b := by
  unfold PhysicsWorld.get_body at hb
  unfold PhysicsWorld.get_body applyWorldOps
  refine foldl_preserve
    (P := fun w : PhysicsWorld => assocLookup id w.bodies = some b)
    ?_ ops w hb
  intro w' op hw'
  cases op with
  | setPos id' p => exact static_preserved_set_position hw' hs id' p
  | setVel id' v => exact static_preserved_set_velocity hw' hs id' v
  | runStep dt => exact static_preserved_step hw' hs dt

/-- Witness for C5: a static body at (10, 20) keeps its full record
through a position set, a velocity set, and a physics step. -/
theorem static_body_never_moves_witness :
    (applyWorldOps staticSampleWorld
      [WorldOp.setPos 3 ⟨50, 60⟩, WorldOp.setVel 3 ⟨5, 5⟩,
       WorldOp.runStep FIXED_TIMESTEP]).get_body 3 = some staticSampleBody :=
  static_body_never_moves staticSampleWorld 3 staticSampleBody
    [WorldOp.setPos 3 ⟨50, 60⟩, WorldOp.setVel 3 ⟨5, 5⟩,
     WorldOp.runStep FIXED_TIMESTEP] rfl rfl

/-! ## C10: body ids and shadow collision-object ids stay in lockstep -/

theorem idInv_new : idInv PhysicsWorld.new := by
  refine ⟨rfl, by simp [PhysicsWorld.new], ?_, ?_⟩
  · simp [PhysicsWorld.new, CollisionSystem.new,
      CollisionSystem.setup_default_layer_interactions,
      CollisionSystem.applyInteractions, CollisionSystem.defaultInteractions,
      CollisionSystem.set_layer_interaction, SpatialGrid.new]
  · intro id b h
    simp [PhysicsWorld.new, assocLookup] at h

theorem idInv_add {w : PhysicsWorld} (h : idInv w) (b : PhysicsBody) :
    idInv (w.add_body b).2 := by
  obtain ⟨hn, hnb, hno, hk⟩ := h
  unfold PhysicsWorld.add_body CollisionSystem.add_object SpatialGrid.add_object
    CollisionObject.new
  dsimp only
  refine ⟨by simp [hn], keysNodup_insert _ _ hnb, keysNodup_insert _ _ hno, ?_⟩
  intro id b' hb'
  by_cases he : id = w.next_id
  · subst he
    rw [assocLookup_insert_self] at hb'
    injection hb' with hb'
    subst hb'
    refine ⟨rfl, ?_⟩
    rw [← hn, assocLookup_insert_self]
    exact ⟨_, rfl, rfl⟩
  · rw [assocLookup_insert_of_ne _ _ (Ne.symm he)] at hb'
    obtain ⟨hid, obj, hobj, hobjid⟩ := hk id b' hb'
    refine ⟨hid, obj, ?_, hobjid⟩
    rw [assocLookup_insert_of_ne _ _ (by rw [← hn]; exact Ne.symm he)]
    exact hobj

theorem idInv_remove {w : PhysicsWorld} (h : idInv w) (id0 : ℕ) :
    idInv (w.remove_body id0).2 := by
  obtain ⟨hn, hnb, hno, hk⟩ := h
  unfold PhysicsWorld.remove_body CollisionSystem.remove_object
    SpatialGrid.remove_object
  cases hb0 : assocLookup id0 w.bodies with
  | none => exact ⟨hn, hnb, hno, hk⟩
  | some body0 =>
      cases ho0 : assocLookup id0 w.collision_system.spatial_grid.objects with
      | none =>
          refine ⟨hn, keysNodup_erase _ hnb, hno, ?_⟩
          intro id b' hb'
          by_cases he : id = id0
          · subst he
            rw [assocLookup_erase_self _ hnb] at hb'
            exact absurd hb' (by simp)
          · rw [assocLookup_erase_of_ne _ (Ne.symm he)] at hb'
            exact hk id b' hb'
      | some obj0 =>
          refine ⟨hn, keysNodup_erase _ hnb, keysNodup_erase _ hno, ?_⟩
          intro id b' hb'
          by_cases he : id = id0
          · subst he
            rw [assocLookup_erase_self _ hnb] at hb'
            exact absurd hb' (by simp)
          · rw [assocLookup_erase_of_ne _ (Ne.symm he)] at hb'
            obtain ⟨hid, obj, hobj, hobjid⟩ := hk id b' hb'
            refine ⟨hid, obj, ?_, hobjid⟩
            rw [assocLookup_erase_of_ne _ (Ne.symm he)]
            exact hobj

theorem idInv_reachable (ops : List BodyOp) :
    idInv (applyBodyOps PhysicsWorld.new ops) := by
  unfold applyBodyOps
  refine foldl_preserve ?_ ops PhysicsWorld.new idInv_new
  intro w op hw
  cases op with
  | add b => exact idInv_add hw b
  | remove id0 => exact idInv_remove hw id0

/-- **C10.** In a world whose collision objects are created only through
`add_body` (and removed through `remove_body`): the body-id counter and
the collision-object-id counter agree (both start at 1 and advance once
per `add_body`), each stored body's id field equals its key and owns a
shadow collision object stored under that same id, and the id `add_body`
assigns equals the id of the collision object it creates — so the
end-of-step rect resync, the self-collision skip and `remove_body` all
address exactly the body's own shadow object. -/
theorem body_shadow_id_lockstep (ops : List BodyOp) (b : PhysicsBody)
    (w : PhysicsWorld) (hw : w = applyBodyOps PhysicsWorld.new ops) :
    w.next_id = w.collision_system.next_id ∧
    (∀ id b', assocLookup id w.bodies = some b' → b'.id = id ∧
      ∃ obj, assocLookup id w.collision_system.spatial_grid.objects =
        some obj ∧ obj.id = id) ∧
    (w.add_body b).1 = w.collision_system.next_id ∧
    assocLookup (w.add_body b).1 (w.add_body b).2.bodies =
      some { b with id := (w.add_body b).1 } ∧
    assocLookup (w.add_body b).1
        (w.add_body b).2.collision_system.spatial_grid.objects =
      some (CollisionObject.new (w.add_body b).1
        (PhysicsBody.get_rect { b with id := (w.add_body b).1 })
        b.collision_layer CollisionType.solid) := by
  subst hw
  have hI := idInv_reachable ops
  obtain ⟨hn, _, _, hk⟩ := hI
  refine ⟨hn, fun id b' hb' => hk id b' hb', ?_, ?_, ?_⟩
  · exact hn
  · unfold PhysicsWorld.add_body
    dsimp only
    exact assocLookup_insert_self _ _ _
  · unfold PhysicsWorld.add_body CollisionSystem.add_object
      SpatialGrid.add_object CollisionObject.new
    dsimp only
    rw [← hn]
    cases hbt : b.body_type <;>
      simp only [hbt] <;>
      exact assocLookup_insert_self _ _ _

/-- Witness for C10 at the empty op sequence: the counters of a fresh
world agree and the first `add_body` assigns the collision counter's id. -/
theorem body_shadow_id_lockstep_witness :
    PhysicsWorld.new.next_id = PhysicsWorld.new.collision_system.next_id ∧
    (PhysicsWorld.new.add_body staticSampleBody).1 =
      PhysicsWorld.new.collision_system.next_id := by
  have h := body_shadow_id_lockstep [] staticSampleBody PhysicsWorld.new rfl
  exact ⟨h.1, h.2.2.1⟩

/-! ## C4: fixed-timestep accumulator -/

/-- A projection preserved by each fold iteration is preserved by the
whole fold. -/
theorem foldl_proj_eq {σ α γ : Type} {f : σ → α → σ} (g : σ → γ)
    (h : ∀ s a, g (f s a) = g s) :
    ∀ (l : List α) (s : σ), g (List.foldl f s l) = g s := by
  intro l
  induction l with
  | nil => intro s; rfl
  | cons hd tl ih =>
      intro s
      rw [List.foldl_cons, ih (f s hd), h]

theorem move_body_paused_acc (w : PhysicsWorld) (id : ℕ) (t : Vector2) :
    (w.move_body_with_collision id t).paused = w.paused ∧
    (w.move_body_with_collision id t).accumulator = w.accumulator := by
  unfold PhysicsWorld.move_body_with_collision
  cases assocLookup id w.bodies with
  | none => exact ⟨rfl, rfl⟩
  | some body =>
      dsimp only
      split
      · exact ⟨rfl, rfl⟩
      · split
        · exact ⟨rfl, rfl⟩
        · exact ⟨rfl, rfl⟩

theorem integrateStep_paused_acc (dt : ℚ) (w : PhysicsWorld) (id : ℕ) :
    (PhysicsWorld.integrateStep dt w id).paused = w.paused ∧
    (PhysicsWorld.integrateStep dt w id).accumulator = w.accumulator := by
  unfold PhysicsWorld.integrateStep
  cases assocLookup id w.bodies with
  | none => exact ⟨rfl, rfl⟩
  | some body =>
      dsimp only
      split
      · exact ⟨rfl, rfl⟩
      · exact ⟨rfl, rfl⟩

theorem moveStep_paused_acc (dt : ℚ) (w : PhysicsWorld) (id : ℕ) :
    (PhysicsWorld.moveStep dt w id).paused = w.paused ∧
    (PhysicsWorld.moveStep dt w id).accumulator = w.accumulator := by
  unfold PhysicsWorld.moveStep
  cases assocLookup id w.bodies with
  | none => exact ⟨rfl, rfl⟩
  | some body =>
      dsimp only
      split
      · exact ⟨rfl, rfl⟩
      · exact move_body_paused_acc w id _

theorem step_paused_acc (w : PhysicsWorld) (dt : ℚ) :
    (w.step dt).paused = w.paused ∧
    (w.step dt).accumulator = w.accumulator := by
  unfold PhysicsWorld.step PhysicsWorld.syncPass PhysicsWorld.integratePass
    PhysicsWorld.movePass
  dsimp only
  constructor
  · rw [foldl_proj_eq PhysicsWorld.paused
        (fun s a => (moveStep_paused_acc dt s a).1),
      foldl_proj_eq PhysicsWorld.paused
        (fun s a => (integrateStep_paused_acc dt s a).1)]
  · rw [foldl_proj_eq PhysicsWorld.accumulator
        (fun s a => (moveStep_paused_acc dt s a).2),
      foldl_proj_eq PhysicsWorld.accumulator
        (fun s a => (integrateStep_paused_acc dt s a).2)]

theorem stepN_paused (n : ℕ) :
    ∀ w : PhysicsWorld, (w.stepN n).paused = w.paused := by
  induction n with
  | zero => intro w; rfl
  | succ n ih =>
      intro w
      show ((w.step FIXED_TIMESTEP).stepN n).paused = w.paused
      rw [ih, (step_paused_acc w FIXED_TIMESTEP).1]

theorem accRun_of_lt {acc : ℚ} (h : ¬ FIXED_TIMESTEP ≤ acc) :
    PhysicsWorld.accRun acc = (acc, 0) := by
  rw [PhysicsWorld.accRun]
  rw [dif_neg h]

theorem accRun_of_ge {acc : ℚ} (h : FIXED_TIMESTEP ≤ acc) :
    PhysicsWorld.accRun acc =
      ((PhysicsWorld.accRun (acc - FIXED_TIMESTEP)).1,
       (PhysicsWorld.accRun (acc - FIXED_TIMESTEP)).2 + 1) := by
  rw [PhysicsWorld.accRun]
  rw [dif_pos h]

theorem updateLoop_of_lt {acc : ℚ} (h : ¬ FIXED_TIMESTEP ≤ acc)
    (w : PhysicsWorld) : w.updateLoop acc = (w, acc, 0) := by
  rw [PhysicsWorld.updateLoop]
  rw [dif_neg h]

theorem updateLoop_of_ge {acc : ℚ} (h : FIXED_TIMESTEP ≤ acc)
    (w : PhysicsWorld) : w.updateLoop acc =
      (((w.step FIXED_TIMESTEP).updateLoop (acc - FIXED_TIMESTEP)).1,
       ((w.step FIXED_TIMESTEP).updateLoop (acc - FIXED_TIMESTEP)).2.1,
       ((w.step FIXED_TIMESTEP).updateLoop (acc - FIXED_TIMESTEP)).2.2 + 1)
    := by
  rw [PhysicsWorld.updateLoop]
  rw [dif_pos h]

theorem floor_timestep_pos {acc : ℚ} (h : FIXED_TIMESTEP ≤ acc) :
    1 ≤ (⌊acc / FIXED_TIMESTEP⌋).toNat := by
  have hT : (0 : ℚ) < FIXED_TIMESTEP := by norm_num [FIXED_TIMESTEP]
  have h1 : (1 : ℚ) ≤ acc / FIXED_TIMESTEP := (one_le_div hT).mpr h
  have h2 : (1 : ℤ) ≤ ⌊acc / FIXED_TIMESTEP⌋ := by
    exact_mod_cast Int.le_floor.mpr (by exact_mod_cast h1)
  omega

theorem floor_timestep_dec {acc : ℚ} (h : FIXED_TIMESTEP ≤ acc) :
    (⌊(acc - FIXED_TIMESTEP) / FIXED_TIMESTEP⌋).toNat =
      (⌊acc / FIXED_TIMESTEP⌋).toNat - 1 := by
  have hT : (0 : ℚ) < FIXED_TIMESTEP := by norm_num [FIXED_TIMESTEP]
  have hfl : ⌊(acc - FIXED_TIMESTEP) / FIXED_TIMESTEP⌋ =
      ⌊acc / FIXED_TIMESTEP⌋ - 1 := by
    rw [sub_div, div_self (ne_of_gt hT)]
    exact Int.floor_sub_one _
  have h2 : (1 : ℤ) ≤ ⌊acc / FIXED_TIMESTEP⌋ := by
    have h1 : (1 : ℚ) ≤ acc / FIXED_TIMESTEP := (one_le_div hT).mpr h
    exact_mod_cast Int.le_floor.mpr (by exact_mod_cast h1)
  omega

/-- The loop of `update` runs `accRun`-many steps on the world, and its
leftover accumulator and step count are exactly `accRun`'s. -/
theorem updateLoop_parts :
    ∀ (n : ℕ) (acc : ℚ), (⌊acc / FIXED_TIMESTEP⌋).toNat = n →
    ∀ w : PhysicsWorld,
      (w.updateLoop acc).1 = w.stepN (PhysicsWorld.accRun acc).2 ∧
      (w.updateLoop acc).2.1 = (PhysicsWorld.accRun acc).1 ∧
      (w.updateLoop acc).2.2 = (PhysicsWorld.accRun acc).2 := by
  intro n
  induction n with
  | zero =>
      intro acc hn w
      have h : ¬ FIXED_TIMESTEP ≤ acc := by
        intro hc
        have := floor_timestep_pos hc
        omega
      rw [updateLoop_of_lt h, accRun_of_lt h]
      exact ⟨rfl, rfl, rfl⟩
  | succ n ih =>
      intro acc hn w
      by_cases h : FIXED_TIMESTEP ≤ acc
      · have hdec : (⌊(acc - FIXED_TIMESTEP) / FIXED_TIMESTEP⌋).toNat = n := by
          rw [floor_timestep_dec h, hn]
          omega
        obtain ⟨ih1, ih2, ih3⟩ :=
          ih (acc - FIXED_TIMESTEP) hdec (w.step FIXED_TIMESTEP)
        rw [updateLoop_of_ge h, accRun_of_ge h]
        refine ⟨?_, ih2, by rw [ih3]⟩
        rw [ih1]
        rfl
      · rw [updateLoop_of_lt h, accRun_of_lt h]
        exact ⟨rfl, rfl, rfl⟩

/-- Splitting lemma for the accumulator loop: running the loop, then
adding `d ≥ 0` and running it again, drains the same number of steps and
leaves the same remainder as one run on the summed amount. -/
theorem accRun_split :
    ∀ (n : ℕ) (acc d : ℚ), (⌊acc / FIXED_TIMESTEP⌋).toNat = n → 0 ≤ d →
      (PhysicsWorld.accRun ((PhysicsWorld.accRun acc).1 + d)).1 =
        (PhysicsWorld.accRun (acc + d)).1 ∧
      (PhysicsWorld.accRun acc).2 +
          (PhysicsWorld.accRun ((PhysicsWorld.accRun acc).1 + d)).2 =
        (PhysicsWorld.accRun (acc + d)).2 := by
  intro n
  induction n with
  | zero =>
      intro acc d hn hd
      have h : ¬ FIXED_TIMESTEP ≤ acc := by
        intro hc
        have := floor_timestep_pos hc
        omega
      rw [accRun_of_lt h]
      exact ⟨rfl, by simp⟩
  | succ n ih =>
      intro acc d hn hd
      by_cases h : FIXED_TIMESTEP ≤ acc
      · have hdec : (⌊(acc - FIXED_TIMESTEP) / FIXED_TIMESTEP⌋).toNat = n := by
          rw [floor_timestep_dec h, hn]
          omega
        obtain ⟨ih1, ih2⟩ := ih (acc - FIXED_TIMESTEP) d hdec hd
        have h2 : FIXED_TIMESTEP ≤ acc + d := by linarith
        have harg : acc + d - FIXED_TIMESTEP = acc - FIXED_TIMESTEP + d := by
          ring
        rw [accRun_of_ge h, accRun_of_ge h2, harg]
        refine ⟨ih1, ?_⟩
        dsimp only
        omega
      · rw [accRun_of_lt h]
        exact ⟨rfl, by simp⟩

/-- `updateCounted` on an unpaused world: count and leftover accumulator
are `accRun` of the accumulated time, and the world stays unpaused. -/
theorem updateCounted_char (w : PhysicsWorld) (d : ℚ)
    (hp : w.paused = false) :
    (w.updateCounted d).2 =
      (PhysicsWorld.accRun (w.accumulator + d)).2 ∧
    (w.updateCounted d).1.accumulator =
      (PhysicsWorld.accRun (w.accumulator + d)).1 ∧
    (w.updateCounted d).1.paused = false := by
  unfold PhysicsWorld.updateCounted
  rw [hp]
  dsimp only [Bool.false_eq_true, if_false]
  obtain ⟨h1, h2, h3⟩ := updateLoop_parts _ (w.accumulator + d) rfl w
  refine ⟨h3, h2, ?_⟩
  show (w.updateLoop (w.accumulator + d)).1.paused = false
  rw [h1, stepN_paused, hp]

/-- A split sequence of updates drains `accRun` of the total time. -/
theorem updateCountFold_char :
    ∀ (dts : List ℚ) (w : PhysicsWorld) (d : ℚ), w.paused = false →
      (∀ x ∈ dts, 0 ≤ x) →
      (PhysicsWorld.updateCountFold w (d :: dts)).2 =
        (PhysicsWorld.accRun (w.accumulator + (d + dts.sum))).2 ∧
      (PhysicsWorld.updateCountFold w (d :: dts)).1.accumulator =
        (PhysicsWorld.accRun (w.accumulator + (d + dts.sum))).1 ∧
      (PhysicsWorld.updateCountFold w (d :: dts)).1.paused = false := by
  intro dts
  induction dts with
  | nil =>
      intro w d hp _
      obtain ⟨h1, h2, h3⟩ := updateCounted_char w d hp
      unfold PhysicsWorld.updateCountFold
      dsimp only
      simp only [List.sum_nil, add_zero, Nat.add_zero]
      exact ⟨h1, h2, h3⟩
  | cons d2 rest ih =>
      intro w d hp hds
      obtain ⟨h1, h2, h3⟩ := updateCounted_char w d hp
      obtain ⟨g1, g2, g3⟩ := ih (w.updateCounted d).1 d2 h3
        (fun x hx => hds x (List.mem_cons_of_mem _ hx))
      have hsum : 0 ≤ d2 + rest.sum := by
        have hd2 : (0 : ℚ) ≤ d2 := hds d2 (by simp)
        have hrest : (0 : ℚ) ≤ rest.sum :=
          List.sum_nonneg (fun x hx => hds x (List.mem_cons_of_mem _ hx))
        linarith
      obtain ⟨s1, s2⟩ := accRun_split _ (w.accumulator + d) (d2 + rest.sum)
        rfl hsum
      constructor
      · show ((w.updateCounted d).2 +
          (PhysicsWorld.updateCountFold (w.updateCounted d).1
            (d2 :: rest)).2) = _
        rw [g1, h2, h1, s2]
        congr 1
        · rw [List.sum_cons]
          ring_nf
      · constructor
        · show (PhysicsWorld.updateCountFold (w.updateCounted d).1
            (d2 :: rest)).1.accumulator = _
          rw [g2, h2, s1]
          congr 1
          rw [List.sum_cons]
          ring
        · exact g3

/-- **C4.** `update(deltaTime)` accumulates time and, while the
accumulator is ≥ FIXED_TIMESTEP, runs one step and subtracts the
timestep; consequently any way of splitting a total elapsed time across
update calls runs the same total number of `step` calls as a single
update of the summed time, with the same remainder carried in the
accumulator; and `update` is a no-op while paused. -/
theorem fixed_timestep_split (w : PhysicsWorld) (d : ℚ) (dts : List ℚ)
    (hp : w.paused = false) (hds : ∀ x ∈ dts, 0 ≤ x) :
    (PhysicsWorld.updateCountFold w (d :: dts)).2 =
      (w.updateCounted (d + dts.sum)).2 ∧
    (PhysicsWorld.updateCountFold w (d :: dts)).1.accumulator =
      (w.updateCounted (d + dts.sum)).1.accumulator ∧
    (∀ (w' : PhysicsWorld) (x : ℚ), w'.paused = true → w'.update x = w') := by
  obtain ⟨f1, f2, _⟩ := updateCountFold_char dts w d hp hds
  obtain ⟨u1, u2, _⟩ := updateCounted_char w (d + dts.sum) hp
  refine ⟨by rw [f1, u1], by rw [f2, u2], ?_⟩
  intro w' x hp'
  unfold PhysicsWorld.update PhysicsWorld.updateCounted
  rw [hp']
  rfl

/-- Witness for C4: two updates of 2/60 s on a fresh world run the same
number of steps and leave the same accumulator as one update of 4/60 s. -/
theorem fixed_timestep_split_witness :
    (PhysicsWorld.updateCountFold PhysicsWorld.new
        [2 / 60, 2 / 60]).2 =
      (PhysicsWorld.new.updateCounted (2 / 60 + List.sum [(2 : ℚ) / 60])).2 ∧
    (PhysicsWorld.updateCountFold PhysicsWorld.new
        [2 / 60, 2 / 60]).1.accumulator =
      (PhysicsWorld.new.updateCounted
        (2 / 60 + List.sum [(2 : ℚ) / 60])).1.accumulator := by
  have h := fixed_timestep_split PhysicsWorld.new (2 / 60) [2 / 60] rfl
    (by
      intro x hx
      simp at hx
      rw [hx]
      norm_num)
  exact ⟨h.1, h.2.1⟩

/-! ## C7: grid round-trip returns each object exactly once -/

theorem mem_intRange {lo hi x : ℤ} :
    x ∈ intRange lo hi ↔ lo ≤ x ∧ x ≤ hi := by
  simp only [intRange, List.mem_map, List.mem_range]
  constructor
  · rintro ⟨i, h1, rfl⟩
    omega
  · rintro ⟨h1, h2⟩
    refine ⟨(x - lo).toNat, by omega, by omega⟩

theorem mem_foldr_append {α β : Type} (f : α → List β) :
    ∀ (l : List α) (c : β),
      c ∈ l.foldr (fun x acc => f x ++ acc) [] ↔ ∃ x ∈ l, c ∈ f x := by
  intro l
  induction l with
  | nil => simp
  | cons hd tl ih => intro c; simp [ih]

theorem mem_get_cells_for_rect {g : SpatialGrid} {r : Rect} {c : ℤ × ℤ} :
    c ∈ g.get_cells_for_rect r ↔
      (⌊r.left / g.cell_size⌋ ≤ c.1 ∧ c.1 ≤ ⌊r.right / g.cell_size⌋ ∧
       ⌊r.top / g.cell_size⌋ ≤ c.2 ∧ c.2 ≤ ⌊r.bottom / g.cell_size⌋) := by
  obtain ⟨cx, cy⟩ := c
  unfold SpatialGrid.get_cells_for_rect
  rw [mem_foldr_append]
  constructor
  · rintro ⟨x, hx, hc⟩
    rw [List.mem_map] at hc
    obtain ⟨y, hy, hxy⟩ := hc
    obtain ⟨h1, h2⟩ := mem_intRange.mp hx
    obtain ⟨h3, h4⟩ := mem_intRange.mp hy
    injection hxy with e1 e2
    subst e1; subst e2
    exact ⟨h1, h2, h3, h4⟩
  · rintro ⟨h1, h2, h3, h4⟩
    refine ⟨cx, mem_intRange.mpr ⟨h1, h2⟩, ?_⟩
    rw [List.mem_map]
    exact ⟨cy, mem_intRange.mpr ⟨h3, h4⟩, rfl⟩

/-- Two intersecting rects with nonnegative dimensions share at least one
grid cell. -/
theorem intersecting_rects_share_cell (g : SpatialGrid) (a q : Rect)
    (hcs : 0 < g.cell_size) (hwa : 0 ≤ a.width) (hha : 0 ≤ a.height)
    (hwq : 0 ≤ q.width) (hhq : 0 ≤ q.height)
    (hint : a.intersects q = true) :
    ∃ c, c ∈ g.get_cells_for_rect a ∧ c ∈ g.get_cells_for_rect q := by
  simp only [Rect.intersects, Bool.and_eq_true, decide_eq_true_eq] at hint
  obtain ⟨⟨⟨h1, h2⟩, h3⟩, h4⟩ := hint
  have hra : a.left ≤ a.right := by
    simp only [Rect.left, Rect.right]
    linarith
  have hrq : q.left ≤ q.right := by
    simp only [Rect.left, Rect.right]
    linarith
  have hba : a.top ≤ a.bottom := by
    simp only [Rect.top, Rect.bottom]
    linarith
  have hbq : q.top ≤ q.bottom := by
    simp only [Rect.top, Rect.bottom]
    linarith
  have hdiv : ∀ x y : ℚ, x ≤ y →
      ⌊x / g.cell_size⌋ ≤ ⌊y / g.cell_size⌋ := by
    intro x y hxy
    apply Int.floor_le_floor
    gcongr
  refine ⟨(⌊max a.left q.left / g.cell_size⌋,
           ⌊max a.top q.top / g.cell_size⌋), ?_, ?_⟩ <;>
    rw [mem_get_cells_for_rect]
  · exact ⟨hdiv _ _ (le_max_left _ _), hdiv _ _ (max_le hra (by linarith)),
      hdiv _ _ (le_max_left _ _), hdiv _ _ (max_le hba (by linarith))⟩
  · exact ⟨hdiv _ _ (le_max_right _ _), hdiv _ _ (max_le (by linarith) hrq),
      hdiv _ _ (le_max_right _ _), hdiv _ _ (max_le (by linarith) hbq)⟩

theorem queryStep_seen_self (g : SpatialGrid) (q : Rect)
    (acc : List ℕ × List CollisionObject) (oid : ℕ) :
    oid ∈ (SpatialGrid.queryStep g q acc oid).1 := by
  unfold SpatialGrid.queryStep
  by_cases hmem : oid ∈ acc.1
  · simpa [hmem]
  · simp only [hmem, if_false]
    cases assocLookup oid g.objects with
    | none => exact List.mem_cons_self _ _
    | some obj =>
        dsimp only
        split
        · exact List.mem_cons_self _ _
        · exact List.mem_cons_self _ _

theorem queryStep_seen_mono (g : SpatialGrid) (q : Rect)
    (acc : List ℕ × List CollisionObject) (oid : ℕ) {x : ℕ}
    (hx : x ∈ acc.1) : x ∈ (SpatialGrid.queryStep g q acc oid).1 := by
  unfold SpatialGrid.queryStep
  by_cases hmem : oid ∈ acc.1
  · simpa [hmem]
  · simp only [hmem, if_false]
    cases assocLookup oid g.objects with
    | none => exact List.mem_cons_of_mem _ hx
    | some obj =>
        dsimp only
        split
        · exact List.mem_cons_of_mem _ hx
        · exact List.mem_cons_of_mem _ hx

/-- The exactly-once invariant of the `query_rect` fold for one object:
the result list holds `o` once if `o.id` was already seen and not at all
otherwise. -/
theorem queryStep_count (g : SpatialGrid) (q : Rect) (o : CollisionObject)
    (hobj : assocLookup o.id g.objects = some o)
    (hkeys : ∀ k obj, assocLookup k g.objects = some obj → obj.id = k)
    (hint : o.intersects q = true)
    (acc : List ℕ × List CollisionObject) (oid : ℕ)
    (h : (o.id ∈ acc.1 → acc.2.count o = 1) ∧
         (o.id ∉ acc.1 → acc.2.count o = 0)) :
    ((o.id ∈ (SpatialGrid.queryStep g q acc oid).1 →
        (SpatialGrid.queryStep g q acc oid).2.count o = 1) ∧
     (o.id ∉ (SpatialGrid.queryStep g q acc oid).1 →
        (SpatialGrid.queryStep g q acc oid).2.count o = 0)) := by
  unfold SpatialGrid.queryStep
  by_cases hmem : oid ∈ acc.1
  · simpa [hmem] using h
  · simp only [hmem, if_false]
    by_cases hoid : oid = o.id
    · subst hoid
      simp only [hobj, hint, if_true]
      have hc0 : acc.2.count o = 0 := h.2 hmem
      constructor
      · intro _
        simp [List.count_append, hc0]
      · intro hn
        exact absurd (List.mem_cons_self _ _) hn
    · have hne : ∀ obj, assocLookup oid g.objects = some obj → obj ≠ o := by
        intro obj hlk hc
        exact hoid (by rw [← hkeys oid obj hlk, hc])
      have hseen : (o.id ∈ oid :: acc.1) ↔ o.id ∈ acc.1 := by
        constructor
        · intro hx
          rcases List.mem_cons.mp hx with h1 | h1
          · exact absurd h1.symm hoid
          · exact h1
        · exact fun hx => List.mem_cons_of_mem _ hx
      cases hlk : assocLookup oid g.objects with
      | none =>
          dsimp only
          constructor
          · intro hx
            exact h.1 (hseen.mp hx)
          · intro hx
            exact h.2 (fun hc => hx (List.mem_cons_of_mem _ hc))
      | some obj =>
          have hobjne : obj ≠ o := hne obj hlk
          have hcount : ∀ l : List CollisionObject,
              (l ++ [obj]).count o = l.count o := by
            intro l
            simp [List.count_append, List.count_cons, hobjne]
          dsimp only
          split
          · constructor
            · intro hx
              rw [hcount]
              exact h.1 (hseen.mp hx)
            · intro hx
              rw [hcount]
              exact h.2 (fun hc => hx (List.mem_cons_of_mem _ hc))
          · constructor
            · intro hx
              exact h.1 (hseen.mp hx)
            · intro hx
              exact h.2 (fun hc => hx (List.mem_cons_of_mem _ hc))

theorem queryCell_count (g : SpatialGrid) (q : Rect) (o : CollisionObject)
    (hobj : assocLookup o.id g.objects = some o)
    (hkeys : ∀ k obj, assocLookup k g.objects = some obj → obj.id = k)
    (hint : o.intersects q = true)
    (acc : List ℕ × List CollisionObject) (c : ℤ × ℤ)
    (h : (o.id ∈ acc.1 → acc.2.count o = 1) ∧
         (o.id ∉ acc.1 → acc.2.count o = 0)) :
    ((o.id ∈ (SpatialGrid.queryCell g q acc c).1 →
        (SpatialGrid.queryCell g q acc c).2.count o = 1) ∧
     (o.id ∉ (SpatialGrid.queryCell g q acc c).1 →
        (SpatialGrid.queryCell g q acc c).2.count o = 0)) := by
  unfold SpatialGrid.queryCell
  cases assocLookup c g.cells with
  | none => exact h
  | some bucket =>
      dsimp only
      exact foldl_preserve
        (P := fun acc : List ℕ × List CollisionObject =>
          (o.id ∈ acc.1 → acc.2.count o = 1) ∧
          (o.id ∉ acc.1 → acc.2.count o = 0))
        (fun acc oid h => queryStep_count g q o hobj hkeys hint acc oid h)
        bucket acc h

theorem queryCell_seen_mono (g : SpatialGrid) (q : Rect)
    (acc : List ℕ × List CollisionObject) (c : ℤ × ℤ) {x : ℕ}
    (hx : x ∈ acc.1) : x ∈ (SpatialGrid.queryCell g q acc c).1 := by
  unfold SpatialGrid.queryCell
  cases assocLookup c g.cells with
  | none => exact hx
  | some bucket =>
      exact foldl_preserve
        (P := fun acc : List ℕ × List CollisionObject => x ∈ acc.1)
        (fun acc oid h => queryStep_seen_mono g q acc oid h)
        bucket acc hx

theorem queryFold_seen_of_mem (g : SpatialGrid) (q : Rect) (oid : ℕ) :
    ∀ (bucket : List ℕ) (acc : List ℕ × List CollisionObject),
      oid ∈ bucket →
      oid ∈ (bucket.foldl (SpatialGrid.queryStep g q) acc).1 := by
  intro bucket
  induction bucket with
  | nil => intro acc h; exact absurd h (List.not_mem_nil _)
  | cons hd tl ih =>
      intro acc h
      rw [List.foldl_cons]
      rcases List.mem_cons.mp h with h1 | h1
      · subst h1
        exact foldl_preserve
          (P := fun acc : List ℕ × List CollisionObject => oid ∈ acc.1)
          (fun acc oid' h => queryStep_seen_mono g q acc oid' h)
          tl _ (queryStep_seen_self g q acc oid)
      · exact ih _ h1

theorem queryCell_seen_of_bucket (g : SpatialGrid) (q : Rect) (oid : ℕ)
    (acc : List ℕ × List CollisionObject) (c : ℤ × ℤ)
    (h : oid ∈ (assocLookup c g.cells).getD []) :
    oid ∈ (SpatialGrid.queryCell g q acc c).1 := by
  unfold SpatialGrid.queryCell
  cases hlk : assocLookup c g.cells with
  | none =>
      rw [hlk] at h
      exact absurd h (List.not_mem_nil _)
  | some bucket =>
      rw [hlk] at h
      exact queryFold_seen_of_mem g q oid bucket acc h

/-- Core of C7: if an object is stored under its id, keys are honest, the
object actively intersects the query rect, and its id is indexed in some
queried cell's bucket, then `query_rect` returns it exactly once. -/
theorem query_rect_count_one (g : SpatialGrid) (q : Rect)
    (o : CollisionObject)
    (hobj : assocLookup o.id g.objects = some o)
    (hkeys : ∀ k obj, assocLookup k g.objects = some obj → obj.id = k)
    (hint : o.intersects q = true)
    (hcell : ∃ c ∈ g.get_cells_for_rect q,
      o.id ∈ (assocLookup c g.cells).getD []) :
    (g.query_rect q).count o = 1 := by
  obtain ⟨c, hcmem, hcbucket⟩ := hcell
  obtain ⟨cs1, cs2, hsplit⟩ := List.append_of_mem hcmem
  unfold SpatialGrid.query_rect
  rw [hsplit, List.foldl_append, List.foldl_cons]
  have hP1 : ((o.id ∈ (cs1.foldl (SpatialGrid.queryCell g q) ([], [])).1 →
      (cs1.foldl (SpatialGrid.queryCell g q) ([], [])).2.count o = 1) ∧
      (o.id ∉ (cs1.foldl (SpatialGrid.queryCell g q) ([], [])).1 →
      (cs1.foldl (SpatialGrid.queryCell g q) ([], [])).2.count o = 0)) :=
    foldl_preserve
      (P := fun acc : List ℕ × List CollisionObject =>
        (o.id ∈ acc.1 → acc.2.count o = 1) ∧
        (o.id ∉ acc.1 → acc.2.count o = 0))
      (fun acc c h => queryCell_count g q o hobj hkeys hint acc c h)
      cs1 ([], [])
      ⟨fun h => absurd h (List.not_mem_nil _), fun _ => List.count_nil o⟩
  have hP2 := queryCell_count g q o hobj hkeys hint _ c hP1
  have hseen2 := queryCell_seen_of_bucket g q o.id
    (cs1.foldl (SpatialGrid.queryCell g q) ([], [])) c hcbucket
  have hP3 := foldl_preserve
    (P := fun acc : List ℕ × List CollisionObject =>
      (o.id ∈ acc.1 → acc.2.count o = 1) ∧
      (o.id ∉ acc.1 → acc.2.count o = 0))
    (fun acc c h => queryCell_count g q o hobj hkeys hint acc c h)
    cs2 _ hP2
  have hseen3 := foldl_preserve
    (P := fun acc : List ℕ × List CollisionObject => o.id ∈ acc.1)
    (fun acc c h => queryCell_seen_mono g q acc c h)
    cs2 _ hseen2
  exact hP3.1 hseen3

theorem pushCell_mem_self (oid : ℕ) (m : List ((ℤ × ℤ) × List ℕ))
    (c : ℤ × ℤ) :
    oid ∈ (assocLookup c (SpatialGrid.pushCell oid m c)).getD [] := by
  unfold SpatialGrid.pushCell
  rw [assocLookup_insert_self]
  exact List.mem_append_right _ (List.mem_singleton_self _)

theorem pushCell_mem_preserve (oid oid' : ℕ) (m : List ((ℤ × ℤ) × List ℕ))
    {c : ℤ × ℤ} (c' : ℤ × ℤ)
    (h : oid ∈ (assocLookup c m).getD []) :
    oid ∈ (assocLookup c (SpatialGrid.pushCell oid' m c')).getD [] := by
  unfold SpatialGrid.pushCell
  by_cases he : c' = c
  · subst he
    rw [assocLookup_insert_self]
    exact List.mem_append_left _ h
  · rw [assocLookup_insert_of_ne _ _ he]
    exact h

theorem pushCells_fold_mem (oid : ℕ) :
    ∀ (cs : List (ℤ × ℤ)) (m : List ((ℤ × ℤ) × List ℕ)) (c : ℤ × ℤ),
      c ∈ cs →
      oid ∈ (assocLookup c (cs.foldl (SpatialGrid.pushCell oid) m)).getD [] := by
  intro cs
  induction cs with
  | nil => intro m c h; exact absurd h (List.not_mem_nil _)
  | cons hd tl ih =>
      intro m c h
      rw [List.foldl_cons]
      rcases List.mem_cons.mp h with h1 | h1
      · subst h1
        exact foldl_preserve
          (P := fun m => oid ∈ (assocLookup c m).getD [])
          (fun m c' hm => pushCell_mem_preserve oid oid m c' hm)
          tl _ (pushCell_mem_self oid m c)
      · exact ih _ c h1

/-- **C7.** An active object added to the spatial grid is returned by any
query whose rect intersects the object's rect, exactly once — even when
the object's rect spans multiple grid cells and even though each
overlapped cell's bucket lists its id. -/
theorem grid_round_trip (g : SpatialGrid) (o : CollisionObject) (q : Rect)
    (hcs : 0 < g.cell_size)
    (hkeys : ∀ k obj, assocLookup k g.objects = some obj → obj.id = k)
    (hactive : o.active = true)
    (hwo : 0 ≤ o.rect.width) (hho : 0 ≤ o.rect.height)
    (hwq : 0 ≤ q.width) (hhq : 0 ≤ q.height)
    (hint : o.rect.intersects q = true) :
    ((g.add_object o).query_rect q).count o = 1 := by
  have hobj' : assocLookup o.id (g.add_object o).objects = some o := by
    unfold SpatialGrid.add_object
    exact assocLookup_insert_self _ _ _
  have hkeys' : ∀ k obj, assocLookup k (g.add_object o).objects = some obj →
      obj.id = k := by
    intro k obj hlk
    unfold SpatialGrid.add_object at hlk
    dsimp only at hlk
    by_cases he : k = o.id
    · subst he
      rw [assocLookup_insert_self] at hlk
      injection hlk with hlk
      rw [← hlk]
    · rw [assocLookup_insert_of_ne _ _ (Ne.symm he)] at hlk
      exact hkeys k obj hlk
  have hint' : o.intersects q = true := by
    unfold CollisionObject.intersects
    rw [hactive, hint]
    rfl
  obtain ⟨c, hca, hcq⟩ :=
    intersecting_rects_share_cell g o.rect q hcs hwo hho hwq hhq hint
  apply query_rect_count_one _ _ _ hobj' hkeys' hint'
  refine ⟨c, hcq, ?_⟩
  show o.id ∈ (assocLookup c
    ((g.get_cells_for_rect o.rect).foldl
      (SpatialGrid.pushCell o.id) g.cells)).getD []
  exact pushCells_fold_mem o.id _ g.cells c hca

/-- Witness for C7: the 200×100 sample object spans eight cells of a
fresh 64-unit grid; a query overlapping it returns it exactly once. -/
theorem grid_round_trip_witness :
    (((SpatialGrid.new 64).add_object
        (sampleObject CollisionType.solid)).query_rect
      (Rect.new 90 80 32 32)).count (sampleObject CollisionType.solid) = 1 := by
  apply grid_round_trip
  · norm_num [SpatialGrid.new]
  · intro k obj h
    simp [SpatialGrid.new, assocLookup] at h
  · rfl
  · norm_num [sampleObject, CollisionObject.new, Rect.new]
  · norm_num [sampleObject, CollisionObject.new, Rect.new]
  · norm_num [Rect.new]
  · norm_num [Rect.new]
  · norm_num [sampleObject, CollisionObject.new, Rect.new, Rect.intersects,
      Rect.left, Rect.right, Rect.top, Rect.bottom]

end Rustux
